import Mathlib

/-!
# RoomBot guest/room reconciliation engine: a shallow embedding

This file embeds the reconciliation core of the RoomBot repository
(`backend/reservations`) in Lean 4 and proves properties of it.

Conventions of the embedding:

* Django model rows become Lean structures; the database becomes an explicit
  `DB` value (a list of guests and a list of rooms).  A Django primary key is
  the `id : Nat` field; Django compares model instances by primary key, and
  `id` values in a well-formed `DB` are distinct.
* `Model.objects.get(...)` becomes `objectsGet`, returning
  `Except GetErr row` with `GetErr.doesNotExist` and
  `GetErr.multipleObjectsReturned`, exactly the two exceptions Django raises.
* `row.save()` becomes a pure update of the `DB` value.  A freshly
  constructed row carries `id = 0` (unsaved); saving it allocates the next
  free id, saving a row with a nonzero id replaces the stored row.
* Python while-loops and unbounded recursion become fuel-indexed functions;
  running out of fuel is a distinguishable outcome and stands for
  non-termination of the original loop.
* Randomness (`order_by("?")`, `phrasing()`) is passed in as an explicit
  parameter (a shuffle function, an OTP supply).
* Python string truthiness on nullable char fields (`None` and `""` are
  falsy) is `strTruthy`.
-/

namespace RoomBot

/-- Python string truthiness for a nullable char field: `None` and the empty
string are falsy. -/
def strTruthy : Option String → Bool
  | none => false
  | some s => s ≠ ""

/-- ASCII version of the Python `str.title()` used when building guest
names: each alphabetic run is capitalised. -/
def pyTitleAux : Bool → List Char → List Char
  | _, [] => []
  | prevAlpha, c :: cs =>
    let out := if c.isAlpha then (if prevAlpha then c.toLower else c.toUpper) else c
    out :: pyTitleAux c.isAlpha cs

/-- Python `str.title()` (ASCII). -/
def pyTitle (s : String) : String :=
  String.mk (pyTitleAux false s.data)

/-- The two exceptions a Django `objects.get` can raise. -/
inductive GetErr where
  | doesNotExist
  | multipleObjectsReturned
  deriving DecidableEq, Repr

/-- `Model.objects.get(pred)`: the unique row matching `pred`, or the Django
exception. -/
def objectsGet {α : Type} (rows : List α) (pred : α → Bool) : Except GetErr α :=
  match rows.filter pred with
  | [] => .error .doesNotExist
  | [r] => .ok r
  | _ :: _ :: _ => .error .multipleObjectsReturned

/-- Exceptions that escape the embedded service code. -/
inductive PyExc where
  /-- The fuel of an embedded unbounded recursion ran out: the original
  Python call would not have returned.  Not a Python exception; it marks
  the boundary of the fuel-indexed embedding. -/
  | outOfFuel
  /-- `Guest.DoesNotExist` or `Room.DoesNotExist` escaping uncaught. -/
  | doesNotExist
  /-- `MultipleObjectsReturned` escaping uncaught. -/
  | multipleObjectsReturned
  /-- `UnknownProductError` from `Room.derive_hotel`. -/
  | unknownProduct (product : String)
  /-- The bare `Exception` raised by `Room.short_product_code` and
  `RoomAssignmentService.find_room`. -/
  | exception (msg : String)
  /-- `IndexError` from indexing an empty queryset. -/
  | indexError
  /-- A write rejected by the database (commit-time failure), used by the
  failure-injection semantics for saves. -/
  | databaseError
  deriving DecidableEq, Repr

/-- A `reservations.models.Guest` row. -/
structure Guest where
  id : Nat := 0
  name : String := ""
  email : String := ""
  ticket : String := ""
  transfer : String := ""
  jwt : String := ""
  room_number : Option String := none
  hotel : Option String := none
  can_login : Bool := false
  onboarding_sent : Bool := false
  deriving DecidableEq, Repr

/-- A `reservations.models.Room` row (the fields the reconciliation core
reads or writes). -/
structure Room where
  id : Nat := 0
  number : String := ""
  name_take3 : String := ""
  name_hotel : String := ""
  is_available : Bool := false
  is_special : Bool := false
  is_placed : Bool := false
  sp_ticket_id : Option String := none
  primary : String := ""
  secondary : String := ""
  /-- Foreign key to the occupant guest, by primary key. -/
  guest : Option Nat := none
  deriving DecidableEq, Repr

/-- A normalized external ticket record (`SecretPartyGuestIngest`): the
fields the services consume. -/
structure TicketRec where
  ticket_code : String := ""
  first_name : String := ""
  last_name : String := ""
  email : String := ""
  product : String := ""
  transferred_from_code : String := ""
  deriving DecidableEq, Repr

/-- The repositories the services write: all guest rows and all room rows. -/
structure DB where
  guests : List Guest := []
  rooms : List Room := []
  deriving DecidableEq, Repr

/-- The next primary key a save of a fresh row allocates. -/
def DB.nextGuestId (db : DB) : Nat :=
  (db.guests.map Guest.id).foldl max 0 + 1

/-- Save a guest row: a fresh row (`id = 0`) is inserted with a new primary
key, an existing row replaces the stored row with the same key.  Returns the
saved row (with its key) along with the new state. -/
def DB.saveGuest (db : DB) (g : Guest) : DB × Guest :=
  if g.id = 0 then
    let g' := { g with id := db.nextGuestId }
    ({ db with guests := db.guests ++ [g'] }, g')
  else
    ({ db with guests := db.guests.map (fun x => if x.id = g.id then g else x) }, g)

/-- Save a room row (rooms are never created by the reconciliation core, so
only replacement is needed). -/
def DB.saveRoom (db : DB) (r : Room) : DB :=
  { db with rooms := db.rooms.map (fun x => if x.id = r.id then r else x) }

/-- `Guest.objects.get(ticket=t)`. -/
def getGuestByTicket (db : DB) (t : String) : Except GetErr Guest :=
  objectsGet db.guests (fun g => g.ticket == t)

/-- `Guest.objects.get(transfer=t)`. -/
def getGuestByTransfer (db : DB) (t : String) : Except GetErr Guest :=
  objectsGet db.guests (fun g => g.transfer == t)

/-- The per-room-type counters of one ingestion run
(`reservations.services.room_counts`): we record the full sequence of
counter bumps, each as the room-type code it was counted under. -/
structure Counts where
  allocatedL : List String := []
  shortageL : List String := []
  orphanL : List String := []
  transferL : List String := []
  deriving DecidableEq, Repr

def Counts.allocated (c : Counts) (t : String) : Counts :=
  { c with allocatedL := c.allocatedL ++ [t] }

def Counts.shortage (c : Counts) (t : String) : Counts :=
  { c with shortageL := c.shortageL ++ [t] }

def Counts.orphan (c : Counts) (t : String) : Counts :=
  { c with orphanL := c.orphanL ++ [t] }

def Counts.transfer (c : Counts) (t : String) : Counts :=
  { c with transferL := c.transferL ++ [t] }

/-!
## TransferChainService (`services/transfer_chain_service.py`)

`transfer_chain(ticket, guest_rows, depth=1)` walks the in-memory ticket
records backward: it finds the first row whose `ticket_code` equals
`ticket`, and if that row carries a `transferred_from_code` it recurses on
it.  A missing parent yields the partial chain collected so far (only a
debug message is logged); there is no error outcome in the function at all.
The Python recursion is unbounded, so the embedding takes fuel; `none`
stands for the recursion never returning (which the acyclicity theorem rules
out for acyclic pools).
-/

def transfer_chain (guest_rows : List TicketRec) : Nat → String → Option (List TicketRec)
  | 0, _ => none
  | fuel + 1, ticket =>
    match guest_rows.find? (fun row => row.ticket_code == ticket) with
    | none => some []
    | some row =>
      if row.transferred_from_code ≠ "" then
        match transfer_chain guest_rows fuel row.transferred_from_code with
        | none => none
        | some [] => some [row]
        | some aChain => some (row :: aChain)
      else
        some [row]

/-- Once `transfer_chain` returns a result at some fuel, any larger fuel
returns the same result: running out of fuel is the only effect of fuel. -/
theorem transfer_chain_mono (guest_rows : List TicketRec) :
    ∀ fuel t res, transfer_chain guest_rows fuel t = some res →
      ∀ fuel', fuel ≤ fuel' → transfer_chain guest_rows fuel' t = some res := by
  intro fuel
  induction fuel with
  | zero => intro t res h; simp [transfer_chain] at h
  | succ f ih =>
    intro t res h fuel' hle
    obtain ⟨f', rfl⟩ : ∃ f', fuel' = f' + 1 := ⟨fuel' - 1, by omega⟩
    rw [transfer_chain] at h ⊢
    cases hfind : guest_rows.find? (fun row => row.ticket_code == t) with
    | none => rw [hfind] at h; exact h
    | some row =>
      rw [hfind] at h
      by_cases hfrom : row.transferred_from_code = ""
      · simp [hfrom] at h ⊢; exact h
      · simp only [hfrom, ne_eq, not_false_eq_true, if_true] at h ⊢
        cases hin : transfer_chain guest_rows f row.transferred_from_code with
        | none => rw [hin] at h; exact absurd h (by simp)
        | some inner =>
          rw [hin] at h
          rw [ih _ _ hin f' (by omega)]
          exact h

/-- The pool of two records whose transferred-from links form a 2-cycle. -/
def cyclicPool : List TicketRec :=
  [{ ticket_code := "TA", transferred_from_code := "TB" },
   { ticket_code := "TB", transferred_from_code := "TA" }]

theorem transfer_chain_cyclic_aux :
    ∀ fuel, transfer_chain cyclicPool fuel "TA" = none ∧
      transfer_chain cyclicPool fuel "TB" = none := by
  intro fuel
  induction fuel with
  | zero => exact ⟨rfl, rfl⟩
  | succ f ih =>
    refine ⟨?_, ?_⟩ <;> rw [transfer_chain]
    · have hfind : cyclicPool.find? (fun row => row.ticket_code == "TA") =
          some { ticket_code := "TA", transferred_from_code := "TB" } := by decide
      rw [hfind]
      simp only [ih.2]
      decide
    · have hfind : cyclicPool.find? (fun row => row.ticket_code == "TB") =
          some { ticket_code := "TB", transferred_from_code := "TA" } := by decide
      rw [hfind]
      simp only [ih.1]
      decide

/-- For a pool whose links admit a decreasing rank (the finite-graph form of
acyclicity), the walk from any found row reaches a result. -/
theorem transfer_chain_exists_aux (guest_rows : List TicketRec) (rank : TicketRec → Nat)
    (hrank : ∀ r ∈ guest_rows, r.transferred_from_code ≠ "" →
      ∀ r' ∈ guest_rows, r'.ticket_code = r.transferred_from_code → rank r' < rank r) :
    ∀ n t row, guest_rows.find? (fun r => r.ticket_code == t) = some row →
      rank row < n → ∃ res fuel, 0 < fuel ∧ transfer_chain guest_rows fuel t = some res := by
  intro n
  induction n with
  | zero => intro t row _ hlt; omega
  | succ n ih =>
    intro t row hfind hlt
    have hmemrow : row ∈ guest_rows := List.mem_of_find?_eq_some hfind
    have hticket : row.ticket_code = t := by
      have := List.find?_some hfind
      simpa using this
    by_cases hfrom : row.transferred_from_code = ""
    · exact ⟨[row], 1, Nat.one_pos, by rw [transfer_chain, hfind]; simp [hfrom]⟩
    · cases hfind' : guest_rows.find? (fun r => r.ticket_code == row.transferred_from_code) with
      | none =>
        refine ⟨[row], 2, by omega, ?_⟩
        rw [transfer_chain, hfind]
        simp only [hfrom, ne_eq, not_false_eq_true, if_true]
        rw [transfer_chain, hfind']
      | some row' =>
        have hmem' : row' ∈ guest_rows := List.mem_of_find?_eq_some hfind'
        have hticket' : row'.ticket_code = row.transferred_from_code := by
          have := List.find?_some hfind'
          simpa using this
        have hdec : rank row' < rank row := hrank row hmemrow hfrom row' hmem' hticket'
        obtain ⟨res', fuel', hpos', hres'⟩ :=
          ih row.transferred_from_code row' hfind' (by omega)
        cases res' with
        | nil =>
          refine ⟨[row], fuel' + 1, by omega, ?_⟩
          rw [transfer_chain, hfind]
          simp only [hfrom, ne_eq, not_false_eq_true, if_true]
          rw [hres']
        | cons a l =>
          refine ⟨row :: a :: l, fuel' + 1, by omega, ?_⟩
          rw [transfer_chain, hfind]
          simp only [hfrom, ne_eq, not_false_eq_true, if_true]
          rw [hres']

/-- One step of the backward walk as a function: the first record whose
ticket the current record transfers from, if any. -/
def chainStep (guest_rows : List TicketRec) (r : TicketRec) : Option TicketRec :=
  if r.transferred_from_code = "" then none
  else guest_rows.find? (fun x => x.ticket_code == r.transferred_from_code)

/-- Iterating the backward step. -/
def chainStepIter (guest_rows : List TicketRec) : Nat → TicketRec → Option TicketRec
  | 0, r => some r
  | k + 1, r =>
    match chainStep guest_rows r with
    | none => none
    | some r' => chainStepIter guest_rows k r'

/-- The number of backward steps available from a record, fuel-bounded. -/
def chainRankF (guest_rows : List TicketRec) : Nat → TicketRec → Nat
  | 0, _ => 0
  | fuel + 1, r =>
    match chainStep guest_rows r with
    | none => 0
    | some r' => chainRankF guest_rows fuel r' + 1

theorem chainStep_mem (guest_rows : List TicketRec) (r r' : TicketRec)
    (h : chainStep guest_rows r = some r') : r' ∈ guest_rows := by
  rw [chainStep] at h
  by_cases hf : r.transferred_from_code = ""
  · rw [if_pos hf] at h; exact absurd h (by simp)
  · rw [if_neg hf] at h; exact List.mem_of_find?_eq_some h

theorem chainStepIter_add (guest_rows : List TicketRec) :
    ∀ (i j : Nat) (r : TicketRec),
      chainStepIter guest_rows (i + j) r =
        match chainStepIter guest_rows i r with
        | none => none
        | some s => chainStepIter guest_rows j s := by
  intro i
  induction i with
  | zero => intro j r; rw [Nat.zero_add]; rfl
  | succ i ih =>
    intro j r
    rw [Nat.succ_add]
    cases hs : chainStep guest_rows r with
    | none => simp only [chainStepIter, hs]
    | some r' =>
      simp only [chainStepIter, hs]
      exact ih j r'

theorem chainStepIter_ne_none_of_le (guest_rows : List TicketRec)
    (i j : Nat) (r : TicketRec) (hji : j ≤ i)
    (h : chainStepIter guest_rows i r ≠ none) :
    chainStepIter guest_rows j r ≠ none := by
  intro hj
  have hadd := chainStepIter_add guest_rows j (i - j) r
  rw [show j + (i - j) = i from by omega, hj] at hadd
  exact h hadd

theorem chainStepIter_some_mem (guest_rows : List TicketRec) :
    ∀ (i : Nat) (r v : TicketRec), r ∈ guest_rows →
      chainStepIter guest_rows i r = some v → v ∈ guest_rows := by
  intro i
  induction i with
  | zero =>
    intro r v hr h
    have : r = v := by simpa [chainStepIter] using h
    exact this ▸ hr
  | succ j ih =>
    intro r v hr h
    rw [chainStepIter] at h
    cases hs : chainStep guest_rows r with
    | none => rw [hs] at h; exact absurd h (by simp)
    | some r' =>
      rw [hs] at h
      exact ih r' v (chainStep_mem guest_rows r r' hs) h

theorem chainRankF_eq_of_dies (guest_rows : List TicketRec) :
    ∀ (d : Nat) (x : TicketRec) (fuel : Nat),
      chainStepIter guest_rows d x ≠ none →
      chainStepIter guest_rows (d + 1) x = none →
      d ≤ fuel → chainRankF guest_rows fuel x = d := by
  intro d
  induction d with
  | zero =>
    intro x fuel h1 h2 _
    have hstep : chainStep guest_rows x = none := by
      cases hs : chainStep guest_rows x with
      | none => rfl
      | some x' =>
        rw [show (0 + 1 : Nat) = 1 from rfl, chainStepIter, hs] at h2
        exact absurd h2 (by simp [chainStepIter])
    cases fuel with
    | zero => rfl
    | succ f => simp [chainRankF, hstep]
  | succ d ih =>
    intro x fuel h1 h2 hle
    obtain ⟨x', hstep⟩ : ∃ x', chainStep guest_rows x = some x' := by
      cases hs : chainStep guest_rows x with
      | none => rw [chainStepIter, hs] at h1; exact absurd rfl h1
      | some x' => exact ⟨x', rfl⟩
    have h1' : chainStepIter guest_rows d x' ≠ none := by
      rw [chainStepIter, hstep] at h1; exact h1
    have h2' : chainStepIter guest_rows (d + 1) x' = none := by
      rw [chainStepIter, hstep] at h2; exact h2
    obtain ⟨f, rfl⟩ : ∃ f, fuel = f + 1 := ⟨fuel - 1, by omega⟩
    simp only [chainRankF, hstep]
    rw [ih x' f h1' h2' (by omega)]

theorem chainStepIter_die_point (guest_rows : List TicketRec) :
    ∀ (m : Nat) (r : TicketRec), chainStepIter guest_rows m r = none →
      ∃ d, d < m ∧ chainStepIter guest_rows d r ≠ none ∧
        chainStepIter guest_rows (d + 1) r = none := by
  intro m
  induction m with
  | zero => intro r h; exact absurd h (by simp [chainStepIter])
  | succ m ih =>
    intro r h
    cases hm : chainStepIter guest_rows m r with
    | none =>
      obtain ⟨d, hd, h1, h2⟩ := ih r hm
      exact ⟨d, by omega, h1, h2⟩
    | some s => exact ⟨m, by omega, by rw [hm]; simp, h⟩

/-- Under the no-cycle hypothesis, the backward walk from any pool member
dies within `|pool| + 1` steps: otherwise the first `|pool| + 2` iterates
all lie in the pool and two must coincide, giving a cycle. -/
theorem chainStepIter_dies (guest_rows : List TicketRec) (r : TicketRec)
    (hmem : r ∈ guest_rows)
    (hnc : ∀ x ∈ guest_rows, ∀ k : Nat, chainStepIter guest_rows (k + 1) x ≠ some x) :
    chainStepIter guest_rows (guest_rows.length + 1) r = none := by
  by_contra hsurvive
  set n := guest_rows.length with hn
  have hdef : ∀ i, i ≤ n + 1 → chainStepIter guest_rows i r ≠ none := fun i hi =>
    chainStepIter_ne_none_of_le guest_rows (n + 1) i r hi hsurvive
  set L : List TicketRec :=
    (List.range (n + 2)).map (fun i => (chainStepIter guest_rows i r).getD {}) with hL
  have hLlen : L.length = n + 2 := by simp [hL]
  have hLget : ∀ (k : Nat) (hk : k < L.length),
      chainStepIter guest_rows k r = some (L.get ⟨k, hk⟩) := by
    intro k hk
    have hk' : k < n + 2 := by rwa [hLlen] at hk
    have hne : chainStepIter guest_rows k r ≠ none := hdef k (by omega)
    cases hs : chainStepIter guest_rows k r with
    | none => exact absurd hs hne
    | some v =>
      simp [hL, List.get_eq_getElem, hs]
  have hLsub : ∀ x ∈ L, x ∈ guest_rows := by
    intro x hx
    obtain ⟨⟨k, hk⟩, hget⟩ := List.mem_iff_get.mp hx
    exact chainStepIter_some_mem guest_rows k r x hmem (hget ▸ hLget k hk)
  have hnotnodup : ¬ L.Nodup := by
    intro hnd
    have := (hnd.subperm hLsub).length_le
    omega
  have hninj : ¬ Function.Injective L.get := fun hinj =>
    hnotnodup (List.nodup_iff_injective_get.mpr hinj)
  rw [Function.not_injective_iff] at hninj
  obtain ⟨a, b, hab, hne⟩ := hninj
  have key : ∀ (i j : Fin L.length), i.val < j.val → L.get i = L.get j → False := by
    intro i j hij hget
    have hvi : chainStepIter guest_rows i.val r = some (L.get i) := by
      rw [hLget i.val i.isLt]
    have hvj : chainStepIter guest_rows j.val r = some (L.get j) := by
      rw [hLget j.val j.isLt]
    have hstepij : chainStepIter guest_rows (j.val - i.val) (L.get i) = some (L.get j) := by
      have h := chainStepIter_add guest_rows i.val (j.val - i.val) r
      rw [show i.val + (j.val - i.val) = j.val from by omega, hvi, hvj] at h
      exact h.symm
    obtain ⟨m, hm⟩ : ∃ m, j.val - i.val = m + 1 := ⟨j.val - i.val - 1, by omega⟩
    rw [hm, ← hget] at hstepij
    exact hnc (L.get i) (hLsub _ (List.get_mem L i.val i.isLt)) m hstepij
  rcases Nat.lt_trichotomy a.val b.val with hlt | heq | hgt
  · exact key a b hlt hab
  · exact hne (Fin.ext heq)
  · exact key b a hgt hab.symm

/-- With distinct tickets, the unique record carrying a ticket is what
`find?` returns. -/
theorem find?_eq_of_ticket (guest_rows : List TicketRec)
    (hnodup : (guest_rows.map TicketRec.ticket_code).Nodup)
    (r' : TicketRec) (c : String) (hr' : r' ∈ guest_rows)
    (hticket : r'.ticket_code = c) :
    guest_rows.find? (fun x => x.ticket_code == c) = some r' := by
  cases hf : guest_rows.find? (fun x => x.ticket_code == c) with
  | none =>
    have := List.find?_eq_none.mp hf r' hr'
    simp [hticket] at this
  | some x =>
    have hxmem : x ∈ guest_rows := List.mem_of_find?_eq_some hf
    have hxt : x.ticket_code = c := by simpa using List.find?_some hf
    have : x = r' := List.inj_on_of_nodup_map hnodup hxmem hr' (by rw [hxt, hticket])
    rw [this]

/-- The backward-walk rank strictly decreases along a transferred-from
link whenever the pool has distinct tickets and no cycle. -/
theorem chainRank_decreases (guest_rows : List TicketRec)
    (hnodup : (guest_rows.map TicketRec.ticket_code).Nodup)
    (hnc : ∀ x ∈ guest_rows, ∀ k : Nat, chainStepIter guest_rows (k + 1) x ≠ some x) :
    ∀ r ∈ guest_rows, r.transferred_from_code ≠ "" →
      ∀ r' ∈ guest_rows, r'.ticket_code = r.transferred_from_code →
        chainRankF guest_rows (guest_rows.length + 1) r' <
          chainRankF guest_rows (guest_rows.length + 1) r := by
  intro r hr hne r' hr' hticket
  set n := guest_rows.length with hn
  have hstep : chainStep guest_rows r = some r' := by
    rw [chainStep, if_neg hne]
    exact find?_eq_of_ticket guest_rows hnodup r' _ hr' hticket
  have hdies := chainStepIter_dies guest_rows r hr hnc
  obtain ⟨d, hdlt, h1, h2⟩ := chainStepIter_die_point guest_rows (n + 1) r hdies
  have hd1 : 1 ≤ d := by
    by_contra hd0
    have : d = 0 := by omega
    subst this
    rw [show (0 + 1 : Nat) = 1 from rfl, chainStepIter, hstep] at h2
    exact absurd h2 (by simp [chainStepIter])
  have h1' : chainStepIter guest_rows (d - 1) r' ≠ none := by
    have : chainStepIter guest_rows d r = chainStepIter guest_rows (d - 1) r' := by
      rw [show d = (d - 1) + 1 from by omega, chainStepIter, hstep]
      rfl
    rwa [this] at h1
  have h2' : chainStepIter guest_rows ((d - 1) + 1) r' = none := by
    have : chainStepIter guest_rows (d + 1) r = chainStepIter guest_rows (d - 1 + 1) r' := by
      rw [show d + 1 = (d - 1 + 1) + 1 from by omega, chainStepIter, hstep]
    rwa [this] at h2
  rw [chainRankF_eq_of_dies guest_rows d r (n + 1) h1 h2 (by omega)]
  rw [chainRankF_eq_of_dies guest_rows (d - 1) r' (n + 1) h1' h2' (by omega)]
  omega

/-- C10: for every pool of ticket records with pairwise-distinct ticket
codes whose transferred-from links form no cycle (no record returns to
itself under the backward step), `TransferChainService.transfer_chain`
terminates — at every sufficiently large fuel it returns one fixed finite
list.  And termination is not guaranteed with cyclic links: on a concrete
2-cycle the walk runs out of any amount of fuel (the recursion never
returns), since it tracks no visited ticket codes. -/
theorem transfer_chain_terminates_iff_acyclic :
    (∀ (guest_rows : List TicketRec),
      (guest_rows.map TicketRec.ticket_code).Nodup →
      (∀ r ∈ guest_rows, ∀ k : Nat, chainStepIter guest_rows (k + 1) r ≠ some r) →
      ∀ t, ∃ (res : List TicketRec) (N : Nat),
        ∀ fuel, N ≤ fuel → transfer_chain guest_rows fuel t = some res)
    ∧ (∀ fuel, transfer_chain cyclicPool fuel "TA" = none) := by
  constructor
  · intro guest_rows hnodup hnc t
    have hrank := chainRank_decreases guest_rows hnodup hnc
    set rank : TicketRec → Nat := chainRankF guest_rows (guest_rows.length + 1) with hrk
    cases hfind : guest_rows.find? (fun r => r.ticket_code == t) with
    | none =>
      refine ⟨[], 1, fun fuel hf => ?_⟩
      obtain ⟨f, rfl⟩ : ∃ f, fuel = f + 1 := ⟨fuel - 1, by omega⟩
      rw [transfer_chain, hfind]
    | some row =>
      obtain ⟨res, fuel, hpos, hres⟩ :=
        transfer_chain_exists_aux guest_rows rank hrank (rank row + 1) t row hfind
          (Nat.lt_succ_self _)
      exact ⟨res, fuel, fun fuel' hf => transfer_chain_mono guest_rows fuel t res hres fuel' hf⟩
  · exact fun fuel => (transfer_chain_cyclic_aux fuel).1

/-- A pool with a broken backward link: the only record transfers from
ticket `T9`, which matches no record in the pool. -/
def brokenPool : List TicketRec :=
  [{ ticket_code := "T1", transferred_from_code := "T9" }]

/-- C3 counterexample: on the backward walk over `brokenPool` the
transferred-from code `T9` matches no record, yet
`TransferChainService.transfer_chain` returns a successful truncated
partial chain (the one record found so far).  Its return type has no error
outcome at all, so no `BrokenChainError` (or any distinguishable error) is
possible; only `TransferChainFixer.build_full_chain` fails on a broken
link. -/
theorem transfer_chain_broken_link_counterexample :
    transfer_chain brokenPool 2 "T1" =
        some [{ ticket_code := "T1", transferred_from_code := "T9" }]
      ∧ ({ ticket_code := "T1", transferred_from_code := "T9" } : TicketRec).transferred_from_code
          ≠ ""
      ∧ brokenPool.find? (fun r => r.ticket_code == "T9") = none := by
  refine ⟨?_, by decide, by decide⟩
  rfl

/-!
## `Guest.chain` (`models.py`)

The static method

```
def chain(trans_code, guest_chain=[]):
```

carries the classic Python mutable default argument: the default list is
created once at function definition time and every call that omits
`guest_chain` appends into that same shared object, whose contents survive
from one call to the next.  The embedding makes the accumulator explicit:
`Guest.chain db fuel code acc` returns the result together with the final
contents of the accumulator object, and
`Guest.chainTwiceDefault` plays two successive calls that both use the
default argument — the second call starts from the list the first call left
behind.
-/

/-- Outcome of `Guest.chain`: a returned list, an escaped
`MultipleObjectsReturned` (only `DoesNotExist` is caught), or the fuel ran
out (the recursion did not return). -/
inductive ChainRes where
  | val (chain : List Guest)
  | raised
  | outOfFuel
  deriving DecidableEq, Repr

/-- `Guest.chain(trans_code, guest_chain)` with the accumulator explicit;
the second component is the state the (shared, mutated) accumulator list is
left in. -/
def Guest.chain (db : DB) : Nat → String → List Guest → ChainRes × List Guest
  | 0, _, acc => (.outOfFuel, acc)
  | fuel + 1, trans_code, acc =>
    match getGuestByTicket db trans_code with
    | .error .doesNotExist => (.val acc, acc)
    | .error .multipleObjectsReturned => (.raised, acc)
    | .ok existing_guest =>
      let acc' := acc ++ [existing_guest]
      if existing_guest.transfer ≠ "" then Guest.chain db fuel existing_guest.transfer acc'
      else (.val acc', acc')

/-- Two successive `Guest.chain(code)` calls that both rely on the default
accumulator argument: the first starts from the pristine default `[]`, the
second from whatever the first call left in the shared default object. -/
def Guest.chainTwiceDefault (db : DB) (fuel : Nat) (code : String) : ChainRes × ChainRes :=
  let r1 := Guest.chain db fuel code []
  let r2 := Guest.chain db fuel code r1.2
  (r1.1, r2.1)

/-- The one-guest repository for the `Guest.chain` determinism bug. -/
def dbChainBug : DB :=
  { guests := [{ id := 1, name := "A", email := "a@example.com", ticket := "T1" }],
    rooms := [] }

/-- C9: `Guest.chain` is not deterministic across invocations.  On a
repository holding a single guest with ticket `T1` and empty transfer, the
first default-argument call returns a one-element chain, but the second
call returns that guest twice: the default accumulator list is shared
across calls, so state from the first call leaks into the second result. -/
theorem guest_chain_default_arg_state_leak :
    Guest.chainTwiceDefault dbChainBug 2 "T1" =
        (.val [{ id := 1, name := "A", email := "a@example.com", ticket := "T1" }],
         .val [{ id := 1, name := "A", email := "a@example.com", ticket := "T1" },
               { id := 1, name := "A", email := "a@example.com", ticket := "T1" }])
      ∧ (Guest.chainTwiceDefault dbChainBug 2 "T1").1 ≠
          (Guest.chainTwiceDefault dbChainBug 2 "T1").2 := by
  exact ⟨rfl, by decide⟩

/-!
## Product → room type / hotel derivation (`models.py`, `constants.py`)

`ROOM_LIST` is a module-level constant; the services read it at call time
(and the tests patch it), so the embedding passes it as a parameter, with
the repository literal available as `ROOM_LIST`.  Note the source list for
"King Lakeview" misses a comma, so Python concatenates two adjacent string
literals into one entry; the embedding reproduces that.
-/

/-- One entry of `constants.ROOM_LIST`: the take3 room-type key, its hotel,
and the product strings sold for it. -/
structure RoomListEntry where
  take3 : String
  hotel : String
  rooms : List String
  deriving DecidableEq, Repr

/-- The repository's `constants.ROOM_LIST`. -/
def ROOM_LIST : List RoomListEntry :=
  [{ take3 := "Queen", hotel := "Bally\x27s",
     rooms := ["04.1 Bally\x27s - Standard 2 Queen",
               "04.2 Bally\x27s - Standard 2 Queen (DTS)",
               "05.1 Bally\x27s - Art Room 2 Queen",
               "05.2 Bally\x27s - Art Room 2 Queen (DTS)",
               "06.1 Bally\x27s - \"Quiet\" Art Room 2 Queen",
               "06.2 Bally\x27s - \"Quiet\" Art Room 2 Queen (DTS)"] },
   { take3 := "Double Queen Lakeview", hotel := "Nugget",
     rooms := ["15.1 Nugget - Sunset Lakeview 2 Queens",
               "15.2 Nugget - Sunset Lakeview 2 Queens (DTS)",
               "20.1 Nugget - Heavenly Lakeview 2 Queens",
               "20.2 Nugget - Heavenly Lakeview 2 Queens (DTS)"] },
   { take3 := "Double Queen Lakeview Balcony", hotel := "Nugget",
     rooms := ["21.1 Nugget - Heavenly Lakeview Balcony 2 Queens",
               "21.2 Nugget - Heavenly Lakeview Balcony 2 Queens (DTS)"] },
   { take3 := "Standard Double Queen", hotel := "Nugget",
     rooms := ["14.1 Nugget - Sunset 2 Queen",
               "14.2 Nugget - Sunset 2 Queen (DTS)"] },
   { take3 := "Queen Sierra Suite", hotel := "Bally\x27s",
     rooms := ["09.1 Bally\x27s - Queen Sierra Suite",
               "09.2 Bally\x27s - Queen Sierra Suite (DTS)"] },
   { take3 := "Standard King", hotel := "Nugget",
     rooms := ["11.1 Nugget - Sunset King",
               "11.2 Nugget - Sunset King (DTS)",
               "17.1 Nugget - Heavenly King",
               "17.2 Nugget - Heavenly King (DTS)"] },
   { take3 := "King", hotel := "Bally\x27s",
     rooms := ["01.1 Bally\x27s - Standard King",
               "01.2 Bally\x27s - Standard King (DTS)",
               "02.1 Bally\x27s - Art Room King",
               "02.2 Bally\x27s - Art Room King (DTS)",
               "03.1 Bally\x27s - \"Quiet\" Art Room King",
               "03.2 Bally\x27s - \"Quiet\" Art Room King (DTS)"] },
   { take3 := "King Lakeview", hotel := "Nugget",
     rooms := ["13.1 Nugget - Sunset Lakeview King",
               "13.2 Nugget - Sunset Lakeview King (DTS)18.1 Nugget - Heavenly Lakeview King",
               "18.2 Nugget - Heavenly Lakeview King (DTS)"] },
   { take3 := "King Lakeview Balcony", hotel := "Nugget",
     rooms := ["19.1 Nugget - Heavenly Lakeview Balcony King",
               "19.2 Nugget - Heavenly Lakeview Balcony King (DTS)"] },
   { take3 := "King Balcony", hotel := "Nugget",
     rooms := ["12.1 Nugget - Sunset Balcony King",
               "12.2 Nugget - Sunset Balcony King (DTS)"] },
   { take3 := "King Sierra Suite", hotel := "Bally\x27s",
     rooms := ["08.1 Bally\x27s - King Sierra Suite",
               "08.2 Bally\x27s - King Sierra Suite (DTS)"] },
   { take3 := "Tahoe Suite", hotel := "Bally\x27s",
     rooms := ["10.1 Bally\x27s - Tahoe Suite",
               "10.2 Bally\x27s - Tahoe Suite (DTS)"] },
   { take3 := "Executive Suite", hotel := "Bally\x27s",
     rooms := ["07.1 Bally\x27s - Executive King Suite",
               "07.2 Bally\x27s - Executive King Suite (DTS)"] },
   { take3 := "Sunset King Suite", hotel := "Nugget",
     rooms := ["16.1 Nugget - Sunset King Suite",
               "16.2 Nugget - Sunset King Suite (DTS)"] },
   { take3 := "Mountain View Suite Balcony", hotel := "Nugget",
     rooms := ["22.1 Nugget - Heavenly Mountain View King Suite",
               "22.2 Nugget - Heavenly Mountain View King Suite (DTS)"] }]

/-- `Room.short_product_code`: the first table entry whose product list
holds the product gives its key; a product that is itself a key maps to
itself; otherwise the bare `Exception` is raised (`none` here). -/
def Room.short_product_code (table : List RoomListEntry) (product : String) : Option String :=
  match table.find? (fun e => e.rooms.contains product) with
  | some e => some e.take3
  | none => if table.any (fun e => e.take3 == product) then some product else none

/-- ASCII lower-casing of one character (the product strings are ASCII). -/
def asciiLower (c : Char) : Char :=
  if 65 ≤ c.toNat ∧ c.toNat ≤ 90 then Char.ofNat (c.toNat + 32) else c

/-- Python `str.lower()` (ASCII). -/
def pyLower (s : String) : String :=
  String.mk (s.data.map asciiLower)

/-- Python `str.startswith`. -/
def pyStartsWith (s pre : String) : Bool :=
  pre.data.isPrefixOf s.data

/-- `Room.derive_hotel`: prefix match on the lowered product string;
anything else raises `UnknownProductError` (`none` here). -/
def Room.derive_hotel (product : String) : Option String :=
  if pyStartsWith (pyLower product) "nugget" then some "Nugget"
  else if pyStartsWith (pyLower product) "bally" then some "Ballys"
  else none

/-!
## RoomAssignmentService (`services/room_assignment_service.py`)

`find_room` filters to available, non-special rooms of the derived type and
hotel and takes the first under a random ordering (`order_by("?")`); the
random ordering is the `shuffle` parameter.
-/

/-- The queryset filter of `find_room`. -/
def eligibleRoom (room_type hotel : String) (r : Room) : Bool :=
  r.is_available && !r.is_special && r.name_take3 == room_type && r.name_hotel == hotel

/-- `RoomAssignmentService.find_room`. -/
def find_room (table : List RoomListEntry) (shuffle : List Room → List Room)
    (rooms : List Room) (room_product : String) : Except PyExc (Option Room) :=
  match Room.short_product_code table room_product with
  | none => .error (.exception "Should never not find a short product code tho")
  | some room_type =>
    match Room.derive_hotel room_product with
    | none => .error (.unknownProduct room_product)
    | some hotel =>
      if room_type = "" then
        .error (.exception ("Unable to actually find room type for " ++ room_product))
      else
        .ok (shuffle (rooms.filter (eligibleRoom room_type hotel))).head?

/-- C7: for a product with a known room type and hotel, and any random
ordering (any permutation), `find_room` returns without raising; a returned
room is one of the stored rooms and is available, non-special, and of the
derived type and hotel; and with no eligible room it returns `None`. -/
theorem find_room_eligible_only (table : List RoomListEntry)
    (shuffle : List Room → List Room) (rooms : List Room)
    (room_product room_type hotel : String)
    (hshuffle : ∀ l, (shuffle l).Perm l)
    (hspc : Room.short_product_code table room_product = some room_type)
    (hrt : room_type ≠ "")
    (hhotel : Room.derive_hotel room_product = some hotel) :
    ∃ res, find_room table shuffle rooms room_product = .ok res
      ∧ (∀ r, res = some r → r ∈ rooms ∧ r.is_available = true ∧ r.is_special = false
          ∧ r.name_take3 = room_type ∧ r.name_hotel = hotel)
      ∧ (rooms.filter (eligibleRoom room_type hotel) = [] → res = none) := by
  refine ⟨(shuffle (rooms.filter (eligibleRoom room_type hotel))).head?, ?_, ?_, ?_⟩
  · rw [find_room, hspc, hhotel]
    simp [hrt]
  · intro r hr
    have hmem : r ∈ shuffle (rooms.filter (eligibleRoom room_type hotel)) := by
      have hcons := List.eq_cons_of_mem_head? (show r ∈ _ from hr)
      rw [hcons]
      exact List.mem_cons_self _ _
    have hmemf : r ∈ rooms.filter (eligibleRoom room_type hotel) :=
      (hshuffle _).mem_iff.mp hmem
    obtain ⟨hmemr, helig⟩ := List.mem_filter.mp hmemf
    simp only [eligibleRoom, Bool.and_eq_true, Bool.not_eq_true', beq_iff_eq] at helig
    exact ⟨hmemr, helig.1.1.1, helig.1.1.2, helig.1.2, helig.2⟩
  · intro hempty
    rw [hempty]
    have : shuffle [] = [] := List.Perm.eq_nil (hshuffle [])
    rw [this]
    rfl

/-- A table and stock for the allocator witness: one product, one eligible
room, plus a special and an unavailable room that must never be picked. -/
def tableW : List RoomListEntry :=
  [{ take3 := "NK", hotel := "Nugget", rooms := ["Nugget King Room"] }]

def roomsW : List Room :=
  [{ id := 1, number := "101", name_take3 := "NK", name_hotel := "Nugget",
     is_available := false, sp_ticket_id := some "T1", primary := "X" },
   { id := 2, number := "102", name_take3 := "NK", name_hotel := "Nugget",
     is_available := true },
   { id := 3, number := "103", name_take3 := "NK", name_hotel := "Nugget",
     is_available := true, is_special := true }]

/-- C7 witness: the allocator theorem applied to the concrete stock. -/
theorem find_room_eligible_only_witness :
    ∃ res, find_room tableW (fun l => l) roomsW "Nugget King Room" = .ok res
      ∧ (∀ r, res = some r → r ∈ roomsW ∧ r.is_available = true ∧ r.is_special = false
          ∧ r.name_take3 = "NK" ∧ r.name_hotel = "Nugget")
      ∧ (roomsW.filter (eligibleRoom "NK" "Nugget") = [] → res = none) :=
  find_room_eligible_only tableW (fun l => l) roomsW "Nugget King Room" "NK" "Nugget"
    (fun l => List.Perm.refl l) (by decide) (by decide) (by decide)

/-!
## GuestValidationService (`services/guest_validation_service.py`)

The service holds the room-product set built from `ROOM_LIST` plus two sets
from `reservations.config` (`IGNORE_TRANSACTIONS`, `GUEST_HOTELS`; the
config module is not part of the staged sources, so the sets are the
constructor's parameters).  An incoming record is a dict read with
`.get`; a missing key yields a falsy value which the validator treats
exactly like the empty string, so the embedding uses plain strings with
`""` for a missing key.
-/

/-- The incoming record as the validator reads it. -/
structure GuestData where
  ticket_code : String := ""
  product : String := ""
  deriving DecidableEq, Repr

/-- State of a constructed `GuestValidationService`. -/
structure ValidationService where
  room_products : List String
  ignored_transactions : List String
  guest_hotels : List String
  deriving Repr

/-- `GuestValidationService._build_room_products_list` (a Python set; the
embedding keeps a list and uses it only through membership). -/
def build_room_products_list (table : List RoomListEntry) : List String :=
  table.foldl (fun acc e => acc ++ e.rooms) []

/-- `GuestValidationService.__init__`. -/
def GuestValidationService.init (table : List RoomListEntry)
    (ignore guest_hotels : List String) : ValidationService :=
  { room_products := build_room_products_list table,
    ignored_transactions := ignore,
    guest_hotels := guest_hotels }

def is_valid_room_product (svc : ValidationService) (product : String) : Bool :=
  svc.room_products.contains product

/-- `is_ticket_existing` catches only `Guest.DoesNotExist`;
`MultipleObjectsReturned` escapes. -/
def is_ticket_existing (db : DB) (ticket_code : String) : Except GetErr Bool :=
  match getGuestByTicket db ticket_code with
  | .ok _ => .ok true
  | .error .doesNotExist => .ok false
  | .error .multipleObjectsReturned => .error .multipleObjectsReturned

def is_transaction_ignored (svc : ValidationService) (ticket_code : String) : Bool :=
  svc.ignored_transactions.contains ticket_code

/-- `is_valid_hotel` catches every exception from `derive_hotel` and turns
it into `false`. -/
def is_valid_hotel (svc : ValidationService) (product : String) : Bool :=
  match Room.derive_hotel product with
  | some hotel => svc.guest_hotels.contains hotel
  | none => false

/-- `validate_guest_data`: the six checks in source order.  The
`MultipleObjectsReturned` that `is_ticket_existing` lets escape propagates
out of this function too. -/
def validate_guest_data (svc : ValidationService) (db : DB) (gd : GuestData) :
    Except GetErr (Bool × Option String) :=
  if gd.ticket_code = "" then .ok (false, some "Missing ticket code")
  else if gd.product = "" then .ok (false, some "Missing product")
  else if is_transaction_ignored svc gd.ticket_code then
    .ok (false, some ("Ticket " ++ gd.ticket_code ++ " is on ignore list"))
  else
    match is_ticket_existing db gd.ticket_code with
    | .error e => .error e
    | .ok true =>
      .ok (false, some ("Ticket " ++ gd.ticket_code ++ " already exists in database"))
    | .ok false =>
      if ¬ is_valid_room_product svc gd.product then
        .ok (false, some ("Product " ++ gd.product ++ " is not a valid room product"))
      else if ¬ is_valid_hotel svc gd.product then
        .ok (false, some ("Unable to derive valid hotel for product " ++ gd.product))
      else .ok (true, none)

/-- `filter_valid_guests`: keeps the records `validate_guest_data` accepts;
an exception escaping the validator aborts the whole batch. -/
def filter_valid_guests (svc : ValidationService) (db : DB) :
    List GuestData → Except GetErr (List GuestData)
  | [] => .ok []
  | gd :: rest =>
    match validate_guest_data svc db gd with
    | .error e => .error e
    | .ok (true, _) =>
      match filter_valid_guests svc db rest with
      | .error e => .error e
      | .ok kept => .ok (gd :: kept)
    | .ok (false, _) => filter_valid_guests svc db rest

/-- A validation-service state with nothing ignored, for the duplicate
corruption scenario. -/
def svcDup : ValidationService :=
  GuestValidationService.init ROOM_LIST [] ["Ballys", "Nugget"]

/-- A repository where two guest rows share ticket `T9` (identity
corruption). -/
def dbDup : DB :=
  { guests := [{ id := 1, name := "A", email := "a@example.com", ticket := "T9" },
               { id := 2, name := "B", email := "b@example.com", ticket := "T9" }],
    rooms := [] }

/-- C5 counterexample: when two guest rows share the incoming ticket code,
`validate_guest_data` does not return a rejection — the uncaught
`MultipleObjectsReturned` escapes it (and aborts `filter_valid_guests`),
because `is_ticket_existing` catches only `DoesNotExist`. -/
theorem validate_duplicate_ticket_raises :
    validate_guest_data svcDup dbDup { ticket_code := "T9", product := "Nugget Prod" } =
        .error .multipleObjectsReturned
      ∧ (dbDup.guests.filter (fun g => g.ticket == "T9")).length = 2
      ∧ filter_valid_guests svcDup dbDup
          [{ ticket_code := "T9", product := "Nugget Prod" }] =
          .error .multipleObjectsReturned := by
  exact ⟨rfl, rfl, rfl⟩

/-- C5 amended: when exactly one guest row carries the incoming ticket code
(and the record has a ticket and product and is not on the ignore list),
`validate_guest_data` rejects with the already-exists reason and
`filter_valid_guests` drops the record; with two or more rows sharing the
ticket the lookup instead raises `MultipleObjectsReturned`, which escapes. -/
theorem validate_existing_ticket_rejected (svc : ValidationService) (db : DB)
    (gd : GuestData) (g : Guest) (rest : List GuestData)
    (htc : gd.ticket_code ≠ "") (hp : gd.product ≠ "")
    (hign : is_transaction_ignored svc gd.ticket_code = false)
    (hone : db.guests.filter (fun x => x.ticket == gd.ticket_code) = [g]) :
    validate_guest_data svc db gd =
        .ok (false, some ("Ticket " ++ gd.ticket_code ++ " already exists in database"))
      ∧ filter_valid_guests svc db (gd :: rest) = filter_valid_guests svc db rest := by
  have hexist : is_ticket_existing db gd.ticket_code = .ok true := by
    rw [is_ticket_existing, getGuestByTicket, objectsGet, hone]
  have hval : validate_guest_data svc db gd =
      .ok (false, some ("Ticket " ++ gd.ticket_code ++ " already exists in database")) := by
    rw [validate_guest_data, if_neg htc, if_neg hp, if_neg (by simp [hign]), hexist]
  exact ⟨hval, by rw [filter_valid_guests, hval]⟩

/-- A repository with exactly one guest on ticket `T7`. -/
def dbOne : DB :=
  { guests := [{ id := 1, name := "A", email := "a@example.com", ticket := "T7" }],
    rooms := [] }

/-- C5 amended witness: the rejection theorem applied at a concrete
single-guest repository. -/
theorem validate_existing_ticket_rejected_witness :
    validate_guest_data svcDup dbOne { ticket_code := "T7", product := "Nugget Prod" } =
        .ok (false, some "Ticket T7 already exists in database")
      ∧ filter_valid_guests svcDup dbOne
          [{ ticket_code := "T7", product := "Nugget Prod" },
           { ticket_code := "", product := "" }] =
          filter_valid_guests svcDup dbOne [{ ticket_code := "", product := "" }] :=
  validate_existing_ticket_rejected svcDup dbOne
    { ticket_code := "T7", product := "Nugget Prod" }
    { id := 1, name := "A", email := "a@example.com", ticket := "T7" }
    [{ ticket_code := "", product := "" }]
    (by decide) (by decide) (by decide) (by decide)

/-!
## GuestManagementService (`services/guest_management_service.py`)

`update_guest` looks up the guest by (ticket, email), handles the
idempotent / refuse / fix-association cases, possibly creates the guest,
clears a displaced original owner, and updates the room — as a sequence of
individual `save()` calls with no enclosing transaction.

To reason about failure atomicity the embedding threads a `SaveCtx`: every
save consumes one write index, and `failAt = some k` makes the k-th write
raise a database error.  A failed write leaves the earlier writes in place
(there is no transaction in this function); `failAt = none` is the normal
run.  `VISIBLE_HOTELS` comes from `reservations.config` (not among the
staged sources) and is the `vis` parameter.
-/

/-- Database state threaded through a service call, with the
failure-injection schedule for writes. -/
structure SaveCtx where
  db : DB
  writeIdx : Nat := 0
  failAt : Option Nat := none
  deriving DecidableEq, Repr

/-- One `guest.save()` under the failure schedule. -/
def saveGuestW (ctx : SaveCtx) (g : Guest) : SaveCtx × Except PyExc Guest :=
  if ctx.failAt = some ctx.writeIdx then
    ({ ctx with writeIdx := ctx.writeIdx + 1 }, .error .databaseError)
  else
    let (db', g') := ctx.db.saveGuest g
    ({ ctx with db := db', writeIdx := ctx.writeIdx + 1 }, .ok g')

/-- One `room.save()` under the failure schedule. -/
def saveRoomW (ctx : SaveCtx) (r : Room) : SaveCtx × Except PyExc Unit :=
  if ctx.failAt = some ctx.writeIdx then
    ({ ctx with writeIdx := ctx.writeIdx + 1 }, .error .databaseError)
  else
    ({ ctx with db := ctx.db.saveRoom r, writeIdx := ctx.writeIdx + 1 }, .ok ())

/-- Tail of `update_guest` after the guest row is settled: set/refresh the
room's `sp_ticket_id`, point the room at the guest, mark it taken, set the
display name, and save the room. -/
def update_guest_room_save (ctx : SaveCtx) (room : Room) (guest : Guest) :
    SaveCtx × Option PyExc :=
  let room :=
    if ¬ strTruthy room.sp_ticket_id then { room with sp_ticket_id := some guest.ticket }
    else if room.sp_ticket_id ≠ some guest.ticket then
      { room with sp_ticket_id := some guest.ticket }
    else room
  let room := { room with guest := some guest.id, is_available := false, primary := guest.name }
  match saveRoomW ctx room with
  | (ctx', .error e) => (ctx', some e)
  | (ctx', .ok _) => (ctx', none)

/-- Middle of `update_guest`: clear and save the displaced original owner
when the room points at a guest and `og_guest` was supplied, then save the
room. -/
def update_guest_unassign (ctx : SaveCtx) (room : Room) (guest : Guest)
    (og_guest : Option Guest) : SaveCtx × Option PyExc :=
  let cleared : Option Guest :=
    match room.guest, og_guest with
    | some gid, some _ =>
      match ctx.db.guests.find? (fun x => x.id == gid) with
      | some rg => some { rg with room_number := none, hotel := none }
      | none => none
    | some _, none => none
    | none, _ => none
  match cleared with
  | some rg =>
    match saveGuestW ctx rg with
    | (ctx', .error e) => (ctx', some e)
    | (ctx', .ok _) => update_guest_room_save ctx' room guest
  | none => update_guest_room_save ctx room guest

/-- The guest save of `update_guest` (`if guest_changed: guest.save()`)
followed by the original-owner clear and room update. -/
def update_guest_persist (ctx : SaveCtx) (room : Room) (guest : Guest)
    (guest_changed : Bool) (og_guest : Option Guest) : SaveCtx × Option PyExc :=
  if guest_changed then
    match saveGuestW ctx guest with
    | (ctx', .error e) => (ctx', some e)
    | (ctx', .ok guest') => update_guest_unassign ctx' room guest' og_guest
  else
    update_guest_unassign ctx room guest og_guest

/-- Second half of `update_guest`: login visibility, the guest save, the
original-owner clear, the room update. -/
def update_guest_finish (vis : List String) (ctx : SaveCtx) (room : Room)
    (guest : Guest) (guest_changed : Bool) (og_guest : Option Guest) :
    SaveCtx × Option PyExc :=
  if vis.contains room.name_hotel then
    update_guest_persist ctx room { guest with can_login := true } true og_guest
  else
    update_guest_persist ctx room guest guest_changed og_guest

/-- `GuestManagementService.update_guest`. -/
def update_guest (vis : List String) (ctx : SaveCtx) (guest_obj : TicketRec)
    (otp : String) (room : Room) (og_guest : Option Guest) : SaveCtx × Option PyExc :=
  match objectsGet ctx.db.guests
      (fun g => g.ticket == guest_obj.ticket_code && g.email == guest_obj.email) with
  | .error .multipleObjectsReturned => (ctx, some .multipleObjectsReturned)
  | .error .doesNotExist =>
    let guest : Guest :=
      { name := pyTitle (guest_obj.first_name ++ " " ++ guest_obj.last_name),
        ticket := guest_obj.ticket_code, jwt := otp, email := guest_obj.email,
        room_number := some room.number, hotel := some room.name_hotel }
    let guest :=
      if guest_obj.transferred_from_code ≠ "" then
        { guest with transfer := guest_obj.transferred_from_code }
      else guest
    update_guest_finish vis ctx room guest true og_guest
  | .ok guest0 =>
    if strTruthy guest0.room_number then
      if guest0.room_number = some room.number ∧ room.guest = some guest0.id then
        (ctx, none)
      else if guest0.room_number = some room.number ∧ room.guest = none then
        update_guest_finish vis ctx room
          { guest0 with room_number := some room.number, hotel := some room.name_hotel }
          true og_guest
      else
        (ctx, none)
    else
      update_guest_finish vis ctx room
        { guest0 with room_number := some room.number, hotel := some room.name_hotel }
        true og_guest

/-- C6: when the (ticket, email) lookup resolves to exactly one stored
guest, `update_guest` is a no-op — repositories unchanged, no exception —
both in the idempotent case (the guest's `room_number` is this room's
number and the room points back at the guest) and in the refuse case (the
guest's `room_number` names a different room, which only logs a warning).
Both returns happen before any write, so the guest, the given room and the
guest's current room all keep their stored state. -/
theorem update_guest_idempotent_and_refuses (vis : List String) (db : DB)
    (rec : TicketRec) (otp : String) (room : Room) (og : Option Guest) (g : Guest)
    (hfind : db.guests.filter
      (fun x => x.ticket == rec.ticket_code && x.email == rec.email) = [g]) :
    ((g.room_number = some room.number ∧ room.number ≠ "" ∧ room.guest = some g.id) →
      update_guest vis ⟨db, 0, none⟩ rec otp room og = (⟨db, 0, none⟩, none))
    ∧ (∀ x, g.room_number = some x → x ≠ "" → x ≠ room.number →
      update_guest vis ⟨db, 0, none⟩ rec otp room og = (⟨db, 0, none⟩, none)) := by
  have hget : objectsGet db.guests
      (fun x => x.ticket == rec.ticket_code && x.email == rec.email) = .ok g := by
    rw [objectsGet, hfind]
  constructor
  · rintro ⟨h1, h2, h3⟩
    have htr : strTruthy g.room_number = true := by rw [h1]; simp [strTruthy, h2]
    rw [update_guest]
    simp only [hget]
    rw [if_pos htr, if_pos ⟨h1, h3⟩]
  · intro x h1 h2 h3
    have htr : strTruthy g.room_number = true := by rw [h1]; simp [strTruthy, h2]
    rw [update_guest]
    simp only [hget]
    rw [if_pos htr, if_neg, if_neg]
    · rintro ⟨hc, -⟩
      rw [h1] at hc
      injection hc with hx
      exact h3 hx
    · rintro ⟨hc, -⟩
      rw [h1] at hc
      injection hc with hx
      exact h3 hx

/-- Repository for the C6 witness: one guest placed in room 101, which
points back at them, and a free-standing room 102. -/
def db6 : DB :=
  { guests := [{ id := 1, name := "A B", email := "a@example.com", ticket := "T1",
                 room_number := some "101", hotel := some "Nugget" }],
    rooms := [{ id := 1, number := "101", name_take3 := "NK", name_hotel := "Nugget",
                sp_ticket_id := some "T1", primary := "A B", guest := some 1 },
              { id := 2, number := "102", name_take3 := "NK", name_hotel := "Nugget",
                is_available := true }] }

def rec6 : TicketRec :=
  { ticket_code := "T1", first_name := "A", last_name := "B", email := "a@example.com" }

def room6a : Room :=
  { id := 1, number := "101", name_take3 := "NK", name_hotel := "Nugget",
    sp_ticket_id := some "T1", primary := "A B", guest := some 1 }

def room6b : Room :=
  { id := 2, number := "102", name_take3 := "NK", name_hotel := "Nugget",
    is_available := true }

/-- C6 witness: the no-op and refuse cases at a concrete repository. -/
theorem update_guest_idempotent_and_refuses_witness :
    update_guest [] ⟨db6, 0, none⟩ rec6 "pw" room6a none = (⟨db6, 0, none⟩, none)
    ∧ update_guest [] ⟨db6, 0, none⟩ rec6 "pw" room6b none = (⟨db6, 0, none⟩, none) :=
  ⟨(update_guest_idempotent_and_refuses [] db6 rec6 "pw" room6a none
      { id := 1, name := "A B", email := "a@example.com", ticket := "T1",
        room_number := some "101", hotel := some "Nugget" } (by decide)).1
      ⟨rfl, by decide, rfl⟩,
   (update_guest_idempotent_and_refuses [] db6 rec6 "pw" room6b none
      { id := 1, name := "A B", email := "a@example.com", ticket := "T1",
        room_number := some "101", hotel := some "Nugget" } (by decide)).2
      "101" rfl (by decide) (by decide)⟩

/-!
## Failure atomicity (C8)

`update_guest` issues its guest and room saves back to back with no
enclosing transaction; `TransferChainFixer.apply_changes`
(`management/commands/fix_transfer_chain.py`) wraps its whole loop in
`transaction.atomic()`, which rolls the database back to the entry state
when anything inside raises.
-/

/-- Room and guest stock for the non-atomicity counterexample: an empty
guest table and one available room. -/
def room8 : Room :=
  { id := 1, number := "101", name_take3 := "NK", name_hotel := "Nugget",
    is_available := true }

def db8 : DB := { guests := [], rooms := [room8] }

def rec8 : TicketRec :=
  { ticket_code := "T1", first_name := "Ann", last_name := "Bee", email := "a@example.com" }

/-- C8 counterexample: a new-guest assignment performs two writes (create
the guest, update the room).  Injecting a failure at the second write
(`failAt = some 1`, the room save) leaves the first write in place: the run
raises, the guest table has changed, the room table has not — an
intermediate state the claim says can never be observed.  `update_guest`
has no transaction to roll the guest write back. -/
theorem update_guest_partial_write_counterexample :
    (update_guest [] ⟨db8, 0, some 1⟩ rec8 "pw" room8 none).2 = some .databaseError
    ∧ (update_guest [] ⟨db8, 0, some 1⟩ rec8 "pw" room8 none).1.db.guests ≠ db8.guests
    ∧ (update_guest [] ⟨db8, 0, some 1⟩ rec8 "pw" room8 none).1.db.rooms = db8.rooms := by
  exact ⟨rfl, by decide, rfl⟩

/-- The field changes `get_changes` records for one guest
(`{field: (old, new)}`; an absent key means the field is untouched). -/
structure GuestFieldDelta where
  room_number : Option (Option String × Option String) := none
  hotel : Option (Option String × Option String) := none
  can_login : Option (Bool × Bool) := none
  deriving DecidableEq, Repr

/-- The field changes `get_changes` records for one room. -/
structure RoomFieldDelta where
  /-- Old and new guest, by email (`None` clears the pointer). -/
  guest : Option (Option String × Option String) := none
  sp_ticket_id : Option (Option String × Option String) := none
  primary : Option (String × String) := none
  secondary : Option (String × String) := none
  is_available : Option (Bool × Bool) := none
  deriving DecidableEq, Repr

/-- The metadata dict attached to a room change. -/
structure ChangeMeta where
  is_correct_room : Bool := false
  is_duplicate : Bool := false
  is_placed_warning : Bool := false
  new_guest_ticket : Option String := none
  deriving DecidableEq, Repr

/-- One entry of the change list `get_changes` produces. -/
inductive Change where
  | guest (g : Guest) (delta : GuestFieldDelta)
  | room (r : Room) (delta : RoomFieldDelta) (meta : ChangeMeta)
  | warning
  | choose_room
  deriving DecidableEq, Repr

/-- Resolution of the new guest for a room change: prefer the supplied tail
guest when the email matches, else look up by the metadata ticket (which
can raise), else fall back to the tail guest. -/
def apply_change_room_guest (ctx : SaveCtx) (tail_guest : Option Guest)
    (meta : ChangeMeta) (r : Room) (new_guest_email : Option String) :
    Except PyExc Room :=
  if strTruthy new_guest_email then
    if (tail_guest.map Guest.email) = new_guest_email ∧ tail_guest ≠ none then
      .ok { r with guest := tail_guest.map Guest.id }
    else if strTruthy meta.new_guest_ticket then
      match getGuestByTicket ctx.db (meta.new_guest_ticket.getD "") with
      | .ok g => .ok { r with guest := some g.id }
      | .error .doesNotExist => .error .doesNotExist
      | .error .multipleObjectsReturned => .error .multipleObjectsReturned
    else
      .ok { r with guest := tail_guest.map Guest.id }
  else
    .ok { r with guest := none }

/-- The body of the `apply_changes` loop for one change. -/
def apply_change (tail_guest : Option Guest) (ctx : SaveCtx) :
    Change → SaveCtx × Option PyExc
  | .warning => (ctx, none)
  | .guest g delta =>
    let g := match delta.room_number with
      | some p => { g with room_number := p.2 }
      | none => g
    let g := match delta.hotel with
      | some p => { g with hotel := p.2 }
      | none => g
    let g := match delta.can_login with
      | some p => { g with can_login := p.2 }
      | none => g
    match saveGuestW ctx g with
    | (ctx', .error e) => (ctx', some e)
    | (ctx', .ok _) => (ctx', none)
  | .room r delta meta =>
    let roomRes : Except PyExc Room :=
      match delta.guest with
      | none => .ok r
      | some p => apply_change_room_guest ctx tail_guest meta r p.2
    match roomRes with
    | .error e => (ctx, some e)
    | .ok r =>
      let r := match delta.sp_ticket_id with
        | some p => { r with sp_ticket_id := p.2 }
        | none => r
      let r := match delta.primary with
        | some p => { r with primary := p.2 }
        | none => r
      let r := match delta.secondary with
        | some p => { r with secondary := p.2 }
        | none => r
      let r := match delta.is_available with
        | some p => { r with is_available := p.2 }
        | none => r
      match saveRoomW ctx r with
      | (ctx', .error e) => (ctx', some e)
      | (ctx', .ok _) => (ctx', none)
  | .choose_room => (ctx, some (.exception "Unknown change type for object"))

/-- The `apply_changes` loop run sequentially (the writes as they hit the
database inside the transaction). -/
def apply_changes_inner (tail_guest : Option Guest) :
    SaveCtx → List Change → SaveCtx × Option PyExc
  | ctx, [] => (ctx, none)
  | ctx, c :: rest =>
    match apply_change tail_guest ctx c with
    | (ctx', none) => apply_changes_inner tail_guest ctx' rest
    | (ctx', some e) => (ctx', some e)

/-- `TransferChainFixer.apply_changes`: the loop inside
`transaction.atomic()` — when anything raises, the database rolls back to
the state at entry. -/
def apply_changes (tail_guest : Option Guest) (ctx : SaveCtx)
    (changes : List Change) : SaveCtx × Option PyExc :=
  match apply_changes_inner tail_guest ctx changes with
  | (ctx', none) => (ctx', none)
  | (ctx', some e) => ({ ctx' with db := ctx.db }, some e)

/-- C8 amended: the fixer's `apply_changes` is all-or-nothing — whatever
change list, failure schedule and raised exception, a failing run leaves
the repositories exactly as they were at entry, and a successful run is
exactly the sequential application of every change.  (The counterexample
shows `update_guest` has no such wrapper.) -/
theorem apply_changes_all_or_nothing (tail_guest : Option Guest) (db : DB)
    (failAt : Option Nat) (changes : List Change) :
    (∀ ctx' e, apply_changes tail_guest ⟨db, 0, failAt⟩ changes = (ctx', some e) →
      ctx'.db = db)
    ∧ (∀ ctx', apply_changes tail_guest ⟨db, 0, failAt⟩ changes = (ctx', none) →
      apply_changes_inner tail_guest ⟨db, 0, failAt⟩ changes = (ctx', none)) := by
  constructor
  · intro ctx' e h
    rw [apply_changes] at h
    cases hinner : apply_changes_inner tail_guest ⟨db, 0, failAt⟩ changes with
    | mk ctxi oe =>
      rw [hinner] at h
      cases oe with
      | none => exact absurd h (by simp)
      | some e' =>
        have : ({ ctxi with db := db } : SaveCtx) = ctx' := congrArg Prod.fst h
        rw [← this]
  · intro ctx' h
    rw [apply_changes] at h
    cases hinner : apply_changes_inner tail_guest ⟨db, 0, failAt⟩ changes with
    | mk ctxi oe =>
      rw [hinner] at h
      cases oe with
      | none => rw [← h]
      | some e' => exact absurd h (by simp)

/-- C8 amended witness: a concrete failing run of `apply_changes` (the
injected failure hits the first room save) ends with the repositories
unchanged. -/
theorem apply_changes_all_or_nothing_witness :
    (SaveCtx.mk db8 1 (some 0)).db = db8 :=
  (apply_changes_all_or_nothing none db8 (some 0)
      [.room room8 { is_available := some (false, true) } {}]).1
    ⟨db8, 1, some 0⟩ .databaseError rfl

/-!
## GuestProcessingService handlers (`services/guest_processing_service.py`)

`_handle_new_guest` first looks for a manually pre-placed room — a room
whose `sp_ticket_id` equals the record's ticket with no guest attached —
and only falls back to `find_room`; `_handle_existing_guest` calls
`find_room` directly with no pre-placement check.
-/

/-- `GuestProcessingService._handle_new_guest`. -/
def handle_new_guest (table : List RoomListEntry) (shuffle : List Room → List Room)
    (vis : List String) (ctx : SaveCtx) (guest_obj : TicketRec) (otp : String)
    (counts : Counts) : (SaveCtx × Counts) × Option PyExc :=
  let placed := objectsGet ctx.db.rooms
    (fun r => r.sp_ticket_id == some guest_obj.ticket_code && r.guest == none)
  let roomRes : Except PyExc (Option Room) :=
    match placed with
    | .ok r => .ok (some r)
    | .error .doesNotExist => find_room table shuffle ctx.db.rooms guest_obj.product
    | .error .multipleObjectsReturned => find_room table shuffle ctx.db.rooms guest_obj.product
  match roomRes with
  | .error e => ((ctx, counts), some e)
  | .ok none =>
    match Room.short_product_code table guest_obj.product with
    | none => ((ctx, counts), some (.exception "Should never not find a short product code tho"))
    | some code => ((ctx, counts.shortage code), none)
  | .ok (some room) =>
    match update_guest vis ctx guest_obj otp room none with
    | (ctx', some e) => ((ctx', counts), some e)
    | (ctx', none) => ((ctx', counts.allocated room.name_take3), none)

/-- `GuestProcessingService._handle_existing_guest`: no pre-placement
lookup, straight to `find_room`; the credential comes from the first
existing entry (`guest_entries[0]`). -/
def handle_existing_guest (table : List RoomListEntry) (shuffle : List Room → List Room)
    (vis : List String) (ctx : SaveCtx) (guest_obj : TicketRec)
    (guest_entries : List Guest) (counts : Counts) : (SaveCtx × Counts) × Option PyExc :=
  match find_room table shuffle ctx.db.rooms guest_obj.product with
  | .error e => ((ctx, counts), some e)
  | .ok none =>
    match guest_entries with
    | [] => ((ctx, counts), some .indexError)
    | _ :: _ =>
      match Room.short_product_code table guest_obj.product with
      | none => ((ctx, counts), some (.exception "Should never not find a short product code tho"))
      | some code => ((ctx, counts.shortage code), none)
  | .ok (some room) =>
    match guest_entries with
    | [] => ((ctx, counts), some .indexError)
    | e0 :: _ =>
      match update_guest vis ctx guest_obj e0.jwt room none with
      | (ctx', some e) => ((ctx', counts), some e)
      | (ctx', none) => ((ctx', counts.allocated room.name_take3), none)

/-- A room save leaves every room with a different primary key in place. -/
theorem saveRoomW_preserves (ctx : SaveCtx) (r P : Room)
    (h : P ∈ ctx.db.rooms) (hne : P.id ≠ r.id) :
    P ∈ (saveRoomW ctx r).1.db.rooms := by
  rw [saveRoomW]
  by_cases hf : ctx.failAt = some ctx.writeIdx
  · rw [if_pos hf]; exact h
  · rw [if_neg hf]
    exact List.mem_map.mpr ⟨P, h, by simp [hne]⟩

/-- A guest save never touches the room table. -/
theorem saveGuestW_rooms (ctx : SaveCtx) (g : Guest) :
    (saveGuestW ctx g).1.db.rooms = ctx.db.rooms := by
  rw [saveGuestW]
  by_cases hf : ctx.failAt = some ctx.writeIdx
  · rw [if_pos hf]
  · rw [if_neg hf, DB.saveGuest]
    by_cases hg : g.id = 0 <;> simp [hg]

theorem update_guest_room_save_preserves (ctx : SaveCtx) (room : Room) (guest : Guest)
    (P : Room) (h : P ∈ ctx.db.rooms) (hne : P.id ≠ room.id) :
    P ∈ (update_guest_room_save ctx room guest).1.db.rooms := by
  rw [update_guest_room_save]
  have step : ∀ r : Room, r.id = room.id →
      P ∈ (match saveRoomW ctx r with
            | (ctx', .error e) => (ctx', some e)
            | (ctx', .ok _) => (ctx', none) : SaveCtx × Option PyExc).1.db.rooms := by
    intro r hr
    have := saveRoomW_preserves ctx r P h (hr ▸ hne)
    cases hs : saveRoomW ctx r with
    | mk ctx' res =>
      rw [hs] at this
      cases res <;> exact this
  by_cases h1 : ¬ strTruthy room.sp_ticket_id
  · rw [if_pos h1]; exact step _ rfl
  · rw [if_neg h1]
    by_cases h2 : room.sp_ticket_id ≠ some guest.ticket
    · rw [if_pos h2]; exact step _ rfl
    · rw [if_neg h2]; exact step _ rfl

theorem update_guest_unassign_preserves (ctx : SaveCtx) (room : Room) (guest : Guest)
    (og : Option Guest) (P : Room) (h : P ∈ ctx.db.rooms) (hne : P.id ≠ room.id) :
    P ∈ (update_guest_unassign ctx room guest og).1.db.rooms := by
  cases hrg : room.guest with
  | none =>
    simp only [update_guest_unassign, hrg]
    cases og <;> exact update_guest_room_save_preserves ctx room guest P h hne
  | some gid =>
    cases og with
    | none =>
      simp only [update_guest_unassign, hrg]
      exact update_guest_room_save_preserves ctx room guest P h hne
    | some o =>
      simp only [update_guest_unassign, hrg]
      cases hfind : ctx.db.guests.find? (fun x => x.id == gid) with
      | none =>
        simp only [hfind]
        exact update_guest_room_save_preserves ctx room guest P h hne
      | some rg =>
        simp only [hfind]
        cases hs : saveGuestW ctx { rg with room_number := none, hotel := none } with
        | mk ctx' res =>
          have hrooms : ctx'.db.rooms = ctx.db.rooms := by
            have := saveGuestW_rooms ctx { rg with room_number := none, hotel := none }
            rw [hs] at this
            exact this
          cases res with
          | error e => simpa [hs, hrooms] using h
          | ok g' =>
            simp only [hs]
            exact update_guest_room_save_preserves ctx' room guest P (hrooms ▸ h) hne

theorem update_guest_persist_preserves (ctx : SaveCtx) (room : Room) (guest : Guest)
    (changed : Bool) (og : Option Guest) (P : Room)
    (h : P ∈ ctx.db.rooms) (hne : P.id ≠ room.id) :
    P ∈ (update_guest_persist ctx room guest changed og).1.db.rooms := by
  rw [update_guest_persist]
  cases changed with
  | false => exact update_guest_unassign_preserves ctx room guest og P h hne
  | true =>
    simp only [if_true]
    cases hs : saveGuestW ctx guest with
    | mk ctx' res =>
      have hrooms : ctx'.db.rooms = ctx.db.rooms := by
        have := saveGuestW_rooms ctx guest
        rw [hs] at this
        exact this
      cases res with
      | error e => simpa [hrooms] using h
      | ok g' =>
        exact update_guest_unassign_preserves ctx' room g' og P (hrooms ▸ h) hne

theorem update_guest_finish_preserves (vis : List String) (ctx : SaveCtx) (room : Room)
    (guest : Guest) (changed : Bool) (og : Option Guest) (P : Room)
    (h : P ∈ ctx.db.rooms) (hne : P.id ≠ room.id) :
    P ∈ (update_guest_finish vis ctx room guest changed og).1.db.rooms := by
  rw [update_guest_finish]
  by_cases hv : vis.contains room.name_hotel = true
  · rw [if_pos hv]
    exact update_guest_persist_preserves ctx room _ true og P h hne
  · rw [if_neg hv]
    exact update_guest_persist_preserves ctx room guest changed og P h hne

/-- `update_guest` only ever saves the room it was handed: every other
room row is untouched whatever branch runs. -/
theorem update_guest_preserves_other_rooms (vis : List String) (ctx : SaveCtx)
    (rec : TicketRec) (otp : String) (room : Room) (og : Option Guest) (P : Room)
    (h : P ∈ ctx.db.rooms) (hne : P.id ≠ room.id) :
    P ∈ (update_guest vis ctx rec otp room og).1.db.rooms := by
  cases hget : objectsGet ctx.db.guests
      (fun g => g.ticket == rec.ticket_code && g.email == rec.email) with
  | error e =>
    cases e with
    | doesNotExist =>
      rw [update_guest]
      simp only [hget]
      exact update_guest_finish_preserves vis ctx room _ true og P h hne
    | multipleObjectsReturned =>
      rw [update_guest]
      simp only [hget]
      exact h
  | ok guest0 =>
    rw [update_guest]
    simp only [hget]
    by_cases h1 : strTruthy guest0.room_number = true
    · rw [if_pos h1]
      by_cases h2 : guest0.room_number = some room.number ∧ room.guest = some guest0.id
      · rw [if_pos h2]; exact h
      · rw [if_neg h2]
        by_cases h3 : guest0.room_number = some room.number ∧ room.guest = none
        · rw [if_pos h3]
          exact update_guest_finish_preserves vis ctx room _ true og P h hne
        · rw [if_neg h3]; exact h
    · rw [if_neg h1]
      exact update_guest_finish_preserves vis ctx room _ true og P h hne

/-- Inversion for `find_room`: a returned room is a stored available room. -/
theorem find_room_some_available (table : List RoomListEntry)
    (shuffle : List Room → List Room) (rooms : List Room) (product : String)
    (room : Room) (hshuffle : ∀ l, (shuffle l).Perm l)
    (h : find_room table shuffle rooms product = .ok (some room)) :
    room ∈ rooms ∧ room.is_available = true := by
  rw [find_room] at h
  cases hspc : Room.short_product_code table product with
  | none => rw [hspc] at h; exact absurd h (by simp)
  | some rt =>
    simp only [hspc] at h
    cases hhot : Room.derive_hotel product with
    | none => rw [hhot] at h; exact absurd h (by simp)
    | some hot =>
      simp only [hhot] at h
      by_cases hrt : rt = ""
      · rw [if_pos hrt] at h; exact absurd h (by simp)
      · rw [if_neg hrt] at h
        have hh : (shuffle (rooms.filter (eligibleRoom rt hot))).head? = some room := by
          injection h
        have hcons := List.eq_cons_of_mem_head? (show room ∈ _ from hh)
        have hmem : room ∈ shuffle (rooms.filter (eligibleRoom rt hot)) := by
          rw [hcons]; exact List.mem_cons_self _ _
        have hmemf : room ∈ rooms.filter (eligibleRoom rt hot) :=
          (hshuffle _).mem_iff.mp hmem
        obtain ⟨hmemr, helig⟩ := List.mem_filter.mp hmemf
        simp only [eligibleRoom, Bool.and_eq_true, beq_iff_eq] at helig
        exact ⟨hmemr, helig.1.1.1⟩

/-- C2 amended: the existing-guest path allocates only through `find_room`
(with no pre-placement lookup), and `find_room` only hands out available
rooms — so an unavailable room, in particular any manually pre-placed room
(`sp_ticket_id` set, `guest` null, unavailable), survives the call
untouched, whatever the outcome.  Only `_handle_new_guest` checks
`sp_ticket_id` for a pre-placed room. -/
theorem handle_existing_guest_never_uses_preplaced (table : List RoomListEntry)
    (shuffle : List Room → List Room) (vis : List String) (db : DB)
    (rec : TicketRec) (entries : List Guest) (counts : Counts) (P : Room)
    (hshuffle : ∀ l, (shuffle l).Perm l)
    (hnodup : (db.rooms.map Room.id).Nodup)
    (hP : P ∈ db.rooms) (hPun : P.is_available = false) :
    P ∈ ((handle_existing_guest table shuffle vis ⟨db, 0, none⟩ rec
        entries counts).1.1).db.rooms := by
  cases hfr : find_room table shuffle db.rooms rec.product with
  | error e => simp only [handle_existing_guest, hfr]; exact hP
  | ok o =>
    cases o with
    | none =>
      simp only [handle_existing_guest, hfr]
      cases entries with
      | nil => exact hP
      | cons e0 rest =>
        cases Room.short_product_code table rec.product <;> exact hP
    | some room =>
      simp only [handle_existing_guest, hfr]
      obtain ⟨hmem, havail⟩ :=
        find_room_some_available table shuffle db.rooms rec.product room hshuffle hfr
      have hne : P.id ≠ room.id := by
        intro hid
        have hPr : P = room :=
          List.inj_on_of_nodup_map hnodup hP hmem hid
        rw [hPr, havail] at hPun
        exact absurd hPun (by simp)
      cases entries with
      | nil => exact hP
      | cons e0 rest =>
        have hpres := update_guest_preserves_other_rooms vis ⟨db, 0, none⟩ rec
          e0.jwt room none P hP hne
        cases hu : update_guest vis ⟨db, 0, none⟩ rec e0.jwt room none with
        | mk ctx' oe =>
          rw [hu] at hpres
          cases oe <;> simpa [hu] using hpres

/-- Stock for the C2 counterexample: guest `gE` already carries the email;
room `P2` is manually pre-placed for ticket `T1` (`sp_ticket_id` set, no
guest, unavailable); room `Q2` is a free room of the product's type. -/
def gE : Guest :=
  { id := 1, name := "Old Name", email := "a@example.com", ticket := "T0", jwt := "J0" }

def roomP2 : Room :=
  { id := 1, number := "101", name_take3 := "NK", name_hotel := "Nugget",
    is_available := false, sp_ticket_id := some "T1", primary := "Someone" }

def roomQ2 : Room :=
  { id := 2, number := "102", name_take3 := "NK", name_hotel := "Nugget",
    is_available := true }

def dbC2 : DB := { guests := [gE], rooms := [roomP2, roomQ2] }

def recC2 : TicketRec :=
  { ticket_code := "T1", first_name := "Ann", last_name := "Bee",
    email := "a@example.com", product := "Nugget King Room" }

/-- C2 counterexample: the repository holds exactly one pre-placed room for
the incoming ticket (`roomP2`), yet `_handle_existing_guest` assigns the
ordinary available room `roomQ2` and leaves `roomP2` untouched with its
guest still null — it performs no pre-placed-room check, unlike
`_handle_new_guest`, which on the same state picks `roomP2`. -/
theorem handle_existing_guest_preplaced_counterexample :
    objectsGet dbC2.rooms
        (fun r => r.sp_ticket_id == some recC2.ticket_code && r.guest == none) =
        .ok roomP2
      ∧ ((handle_existing_guest tableW (fun l => l) [] ⟨dbC2, 0, none⟩ recC2
            [gE] {}).1.1).db.rooms.find? (fun r => r.id == 1) = some roomP2
      ∧ ((handle_existing_guest tableW (fun l => l) [] ⟨dbC2, 0, none⟩ recC2
            [gE] {}).1.1).db.rooms.find? (fun r => r.id == 2) =
          some { roomQ2 with
                 sp_ticket_id := some "T1", guest := some 2,
                 is_available := false, primary := "Ann Bee" }
      ∧ ((handle_new_guest tableW (fun l => l) [] ⟨dbC2, 0, none⟩ recC2
            "pw" {}).1.1).db.rooms.find? (fun r => r.id == 1) =
          some { roomP2 with
                 guest := some 2, is_available := false,
                 primary := "Ann Bee" } := by
  exact ⟨rfl, by decide, by decide, by decide⟩

/-- C2 amended witness: the amended theorem applied at the concrete
counterexample stock. -/
theorem handle_existing_guest_never_uses_preplaced_witness :
    roomP2 ∈ ((handle_existing_guest tableW (fun l => l) [] ⟨dbC2, 0, none⟩ recC2
        [gE] {}).1.1).db.rooms :=
  handle_existing_guest_never_uses_preplaced tableW (fun l => l) [] dbC2 recC2
    [gE] {} roomP2 (fun l => List.Perm.refl l) (by decide) (by decide) (by decide)

/-!
## OrphanReconciliationService (`services/orphan_reconciliation_service.py`)

`reconcile_orphan_rooms(guest_rows, room_counts)` walks the rooms that look
occupied but have no guest link.  The decision to attach a found guest is
`room.primary != guest.name` — exact string inequality skips the room; the
`fuzz.ratio` score appears only inside the log message.
-/

/-- Levenshtein edit distance, fuel-indexed so it computes by structural
recursion (the fuel `xs.length + ys.length` always suffices, since every
recursive call shortens the combined input). -/
def levF : Nat → List Char → List Char → Nat
  | 0, xs, ys => xs.length + ys.length
  | _ + 1, [], ys => ys.length
  | _ + 1, x :: xs, [] => (x :: xs).length
  | fuel + 1, x :: xs, y :: ys =>
    if x = y then levF fuel xs ys
    else 1 + min (levF fuel xs (y :: ys)) (min (levF fuel (x :: xs) ys) (levF fuel xs ys))

/-- Levenshtein edit distance (over character lists). -/
def lev (xs ys : List Char) : Nat :=
  levF (xs.length + ys.length) xs ys

/-- Modelled from the spec: the configured fuzzy name-similarity score.
The code delegates it to the external `fuzzywuzzy` library
(`fuzz.ratio`, not part of this repository), which scores two strings by
Levenshtein similarity on a 0..100 scale; the repository uses 85 as its
threshold (`x[1] > 85`). -/
def fuzzRatio (a b : String) : Nat :=
  let la := a.data
  let lb := b.data
  ((la.length + lb.length - lev la lb) * 100) / (la.length + lb.length)

/-- `get_guest_obj('ticket', value)` as used by the reconciliation loop:
the first incoming record carrying the ticket code.  (The `'name'` field
variant of the helper is never invoked here.) -/
def get_guest_obj_ticket (guest_rows : List TicketRec) (value : String) : Option TicketRec :=
  guest_rows.find? (fun g => g.ticket_code == value)

/-- The running state of one reconciliation pass: the repositories, the
counters, how many `phrasing()` passphrases were drawn, and the orphan
tickets collected so far. -/
structure RecState where
  ctx : SaveCtx
  counts : Counts
  phrCount : Nat := 0
  orphan_tickets : List String := []
  deriving Repr

/-- One stub guest created (or refreshed) for a transfer-chain member
during orphan reconciliation. -/
def reconcile_stub_save (phr : Nat → String) (ctx : SaveCtx) (phrCount : Nat)
    (chain_guest : TicketRec) : (SaveCtx × Nat) × Option PyExc :=
  match objectsGet ctx.db.guests (fun x => x.ticket == chain_guest.ticket_code) with
  | .error .multipleObjectsReturned => ((ctx, phrCount), some .multipleObjectsReturned)
  | .error .doesNotExist =>
    let stub : Guest :=
      { name := pyTitle (chain_guest.first_name ++ " " ++ chain_guest.last_name),
        email := chain_guest.email, ticket := chain_guest.ticket_code,
        jwt := phr phrCount }
    let stub :=
      if chain_guest.transferred_from_code ≠ "" then
        { stub with transfer := chain_guest.transferred_from_code }
      else stub
    match saveGuestW ctx stub with
    | (ctx', .error e) => ((ctx', phrCount + 1), some e)
    | (ctx', .ok _) => ((ctx', phrCount + 1), none)
  | .ok stub0 =>
    let stub :=
      if chain_guest.transferred_from_code ≠ "" then
        { stub0 with transfer := chain_guest.transferred_from_code }
      else stub0
    match saveGuestW ctx stub with
    | (ctx', .error e) => ((ctx', phrCount), some e)
    | (ctx', .ok _) => ((ctx', phrCount), none)

/-- The stub loop over a resolved transfer chain. -/
def reconcile_stubs (phr : Nat → String) :
    SaveCtx → Nat → List String → List TicketRec → (SaveCtx × Nat × List String) × Option PyExc
  | ctx, pc, tickets, [] => ((ctx, pc, tickets), none)
  | ctx, pc, tickets, cg :: rest =>
    match reconcile_stub_save phr ctx pc cg with
    | ((ctx', pc'), some e) => ((ctx', pc', tickets), some e)
    | ((ctx', pc'), none) =>
      reconcile_stubs phr ctx' pc' (tickets ++ [cg.ticket_code]) rest

/-- The in-repository guest resolution for one orphan room: by
`sp_ticket_id` first, then by `room_number`/`hotel`; only `DoesNotExist`
is caught. -/
def reconcile_find_guest (ctx : SaveCtx) (room : Room) : Except PyExc (Option Guest) :=
  let bySp : Except PyExc (Option Guest) :=
    if strTruthy room.sp_ticket_id then
      match getGuestByTicket ctx.db (room.sp_ticket_id.getD "") with
      | .ok g => .ok (some g)
      | .error .doesNotExist => .ok none
      | .error .multipleObjectsReturned => .error .multipleObjectsReturned
    else .ok none
  match bySp with
  | .error e => .error e
  | .ok (some g) => .ok (some g)
  | .ok none =>
    match objectsGet ctx.db.guests
        (fun x => x.room_number == some room.number && x.hotel == some room.name_hotel) with
    | .ok g => .ok (some g)
    | .error .doesNotExist => .ok none
    | .error .multipleObjectsReturned => .error .multipleObjectsReturned

/-- The body of the `reconcile_orphan_rooms` loop for one orphan room. -/
def reconcile_orphan_room (guest_rows : List TicketRec) (fuel : Nat)
    (phr : Nat → String) (vis : List String) (st : RecState) (room : Room) :
    RecState × Option PyExc :=
  match reconcile_find_guest st.ctx room with
  | .error e => (st, some e)
  | .ok (some guest) =>
    if room.primary ≠ guest.name then
      (st, none)
    else
      let room := { room with guest := some guest.id }
      let room := if room.primary = "" then { room with primary := guest.name } else room
      let counts := st.counts.orphan room.name_take3
      match saveRoomW st.ctx room with
      | (ctx', .error e) => ({ st with ctx := ctx', counts := counts }, some e)
      | (ctx', .ok _) =>
        let tickets :=
          if strTruthy room.sp_ticket_id then
            st.orphan_tickets ++ [room.sp_ticket_id.getD ""]
          else st.orphan_tickets
        ({ st with ctx := ctx', counts := counts, orphan_tickets := tickets }, none)
  | .ok none =>
    let guest_obj :=
      if room.sp_ticket_id ≠ none then
        get_guest_obj_ticket guest_rows (room.sp_ticket_id.getD "")
      else none
    match guest_obj with
    | none => (st, none)
    | some gobj =>
      let stubbed : (SaveCtx × Nat × List String) × Option PyExc :=
        if gobj.transferred_from_code ≠ "" then
          match transfer_chain guest_rows fuel gobj.transferred_from_code with
          | none => ((st.ctx, st.phrCount, st.orphan_tickets), some .outOfFuel)
          | some chain =>
            if chain.length > 0 then
              reconcile_stubs phr st.ctx st.phrCount st.orphan_tickets chain
            else ((st.ctx, st.phrCount, st.orphan_tickets), none)
        else ((st.ctx, st.phrCount, st.orphan_tickets), none)
      match stubbed with
      | ((ctx1, pc1, tickets1), some e) =>
        ({ st with ctx := ctx1, phrCount := pc1, orphan_tickets := tickets1 }, some e)
      | ((ctx1, pc1, tickets1), none) =>
        let existing_guests := ctx1.db.guests.filter (fun x => x.email == gobj.email)
        let otp0 := phr pc1
        let pc2 := pc1 + 1
        let otp :=
          match existing_guests with
          | [] => otp0
          | e0 :: _ => e0.jwt
        match update_guest vis ctx1 gobj otp room none with
        | (ctx2, some e) =>
          ({ st with ctx := ctx2, phrCount := pc2, orphan_tickets := tickets1 }, some e)
        | (ctx2, none) =>
          let tickets2 :=
            if strTruthy room.sp_ticket_id then tickets1 ++ [room.sp_ticket_id.getD ""]
            else tickets1
          ({ st with ctx := ctx2, phrCount := pc2, orphan_tickets := tickets2 }, none)

/-- The orphan-room queryset filter
(`guest=None, is_available=False`, `primary` and `sp_ticket_id` nonempty). -/
def orphanRoomPred (r : Room) : Bool :=
  r.guest == none && r.is_available == false && r.primary ≠ "" && strTruthy r.sp_ticket_id

def reconcile_loop (guest_rows : List TicketRec) (fuel : Nat) (phr : Nat → String)
    (vis : List String) : RecState → List Room → RecState × Option PyExc
  | st, [] => (st, none)
  | st, room :: rest =>
    match reconcile_orphan_room guest_rows fuel phr vis st room with
    | (st', none) => reconcile_loop guest_rows fuel phr vis st' rest
    | (st', some e) => (st', some e)

/-- `OrphanReconciliationService.reconcile_orphan_rooms`: the queryset is
evaluated once against the state at entry, then each orphan room is
processed in order.  An uncaught exception aborts the pass. -/
def reconcile_orphan_rooms (guest_rows : List TicketRec) (fuel : Nat)
    (phr : Nat → String) (vis : List String) (ctx : SaveCtx) (counts : Counts) :
    RecState × Option PyExc :=
  let orphan_rooms := ctx.db.rooms.filter orphanRoomPred
  reconcile_loop guest_rows fuel phr vis
    { ctx := ctx, counts := counts, phrCount := 0, orphan_tickets := [] } orphan_rooms

/-- The orphan room and guests for the C4 scenario: the room's `primary`
(`"Jon Doe"`) is one edit away from the stored guest's name
(`"John Doe"`) — far above the 85-point fuzzy threshold, but not equal. -/
def roomC4 : Room :=
  { id := 1, number := "101", name_take3 := "NK", name_hotel := "Nugget",
    is_available := false, sp_ticket_id := some "T1", primary := "Jon Doe" }

def guestC4 : Guest :=
  { id := 1, name := "John Doe", email := "j@example.com", ticket := "T1" }

def dbC4 : DB := { guests := [guestC4], rooms := [roomC4] }

/-- Same stock with the guest's name exactly equal to the room's primary. -/
def guestC4b : Guest :=
  { id := 1, name := "Jon Doe", email := "j@example.com", ticket := "T1" }

def dbC4b : DB := { guests := [guestC4b], rooms := [roomC4] }

/-- C4 counterexample: the orphan room resolves by `sp_ticket_id` to
exactly one guest and the primary name fuzzy-matches the guest's name at
93 — above the configured 85 threshold — yet `reconcile_orphan_rooms`
leaves the whole state untouched (no attach, no save, no orphan ticket),
because the code attaches only on exact string equality; the fuzz score is
computed only for the log line. -/
theorem reconcile_fuzzy_match_not_attached :
    reconcile_orphan_rooms [] 1 (fun _ => "pw") [] ⟨dbC4, 0, none⟩ {} =
        ({ ctx := ⟨dbC4, 0, none⟩, counts := {}, phrCount := 0,
           orphan_tickets := [] }, none)
      ∧ dbC4.guests.filter (fun x => x.ticket == "T1") = [guestC4]
      ∧ 85 < fuzzRatio roomC4.primary guestC4.name
      ∧ roomC4.primary ≠ guestC4.name := by
  refine ⟨rfl, rfl, ?_, by decide⟩
  decide

/-- C4 amended: for an orphan room whose `sp_ticket_id` resolves to exactly
one guest, the loop body attaches that guest and persists the room only
when the room's primary name is exactly equal to the guest's name (also
counting the room and collecting its ticket); on any inequality — however
high the fuzzy similarity — the room is left unresolved with the stored
state unchanged. -/
theorem reconcile_orphan_room_exact_name_only (guest_rows : List TicketRec)
    (fuel : Nat) (phr : Nat → String) (vis : List String) (st : RecState)
    (room : Room) (g : Guest)
    (hfail : st.ctx.failAt = none)
    (hsp : strTruthy room.sp_ticket_id = true)
    (hprim : room.primary ≠ "")
    (hone : st.ctx.db.guests.filter
      (fun x => x.ticket == room.sp_ticket_id.getD "") = [g]) :
    (room.primary = g.name →
      reconcile_orphan_room guest_rows fuel phr vis st room =
        ({ st with
           ctx := { st.ctx with
                    db := st.ctx.db.saveRoom { room with guest := some g.id },
                    writeIdx := st.ctx.writeIdx + 1 },
           counts := st.counts.orphan room.name_take3,
           orphan_tickets := st.orphan_tickets ++ [room.sp_ticket_id.getD ""] }, none))
    ∧ (room.primary ≠ g.name →
      reconcile_orphan_room guest_rows fuel phr vis st room = (st, none)) := by
  have hfg : reconcile_find_guest st.ctx room = .ok (some g) := by
    rw [reconcile_find_guest]
    simp only [hsp, if_true, getGuestByTicket, objectsGet, hone]
  constructor
  · intro heq
    rw [reconcile_orphan_room]
    simp only [hfg]
    rw [if_neg (fun hc => hc heq)]
    simp only [if_neg hprim]
    rw [saveRoomW, hfail]
    rw [if_neg (by simp)]
    simp only [hsp, if_true]
  · intro hne
    rw [reconcile_orphan_room]
    simp only [hfg]
    rw [if_pos hne]

/-- C4 amended witness: the attach case (names exactly equal) and the
skip case (names one edit apart) at the concrete stock. -/
theorem reconcile_orphan_room_exact_name_only_witness :
    (reconcile_orphan_room [] 1 (fun _ => "pw") []
        ⟨⟨dbC4b, 0, none⟩, {}, 0, []⟩ roomC4 =
      ({ ctx := { db := dbC4b.saveRoom { roomC4 with guest := some 1 },
                  writeIdx := 1, failAt := none },
         counts := Counts.mk [] [] ["NK"] [], phrCount := 0,
         orphan_tickets := ["T1"] }, none))
    ∧ (reconcile_orphan_room [] 1 (fun _ => "pw") []
        ⟨⟨dbC4, 0, none⟩, {}, 0, []⟩ roomC4 =
      (⟨⟨dbC4, 0, none⟩, {}, 0, []⟩, none)) :=
  ⟨(reconcile_orphan_room_exact_name_only [] 1 (fun _ => "pw") []
      ⟨⟨dbC4b, 0, none⟩, {}, 0, []⟩ roomC4 guestC4b rfl (by decide) (by decide)
      (by decide)).1 rfl,
   (reconcile_orphan_room_exact_name_only [] 1 (fun _ => "pw") []
      ⟨⟨dbC4, 0, none⟩, {}, 0, []⟩ roomC4 guestC4 rfl (by decide) (by decide)
      (by decide)).2 (by decide)⟩

/-!
## TransferChainFixer (`management/commands/fix_transfer_chain.py`)

`build_full_chain(ticket_id)` finds the starting guest, walks backward to
the head (raising `CommandError` on a broken or ambiguous link), walks
forward to the tail, verifies both, and glues the two walks together,
skipping duplicates.  Both while-loops are fuel-indexed here.
-/

/-- The distinguishable failures of the fixer: a `CommandError` carrying
the message the command raises, or the fuel of an embedded while-loop ran
out (the original loop would not have terminated). -/
inductive FixError where
  | commandError (msg : String)
  | outOfFuel
  deriving DecidableEq, Repr

/-- The backward (upstream) walk of `build_full_chain`: follow `transfer`
links, prepending each found guest, until a guest with an empty `transfer`
is reached. -/
def build_upstream (db : DB) : Nat → Guest → List Guest → Except FixError (List Guest)
  | 0, _, _ => .error .outOfFuel
  | fuel + 1, current, acc =>
    if current.transfer ≠ "" then
      match getGuestByTicket db current.transfer with
      | .ok upstream_guest => build_upstream db fuel upstream_guest (upstream_guest :: acc)
      | .error .doesNotExist =>
        .error (.commandError ("Broken chain: ticket " ++ current.transfer ++
          " not found (referenced by " ++ current.ticket ++ ")"))
      | .error .multipleObjectsReturned =>
        .error (.commandError ("Multiple guests found with ticket " ++ current.transfer ++
          " - database corruption"))
    else .ok acc

/-- The forward (downstream) walk of `build_full_chain`: follow the guest
whose `transfer` names the current ticket until none is found — that last
guest is the tail. -/
def build_downstream (db : DB) : Nat → Guest → List Guest →
    Except FixError (List Guest × Guest)
  | 0, _, _ => .error .outOfFuel
  | fuel + 1, current, acc =>
    let acc := acc ++ [current]
    match getGuestByTransfer db current.ticket with
    | .ok downstream_guest => build_downstream db fuel downstream_guest acc
    | .error .doesNotExist => .ok (acc, current)
    | .error .multipleObjectsReturned =>
      .error (.commandError ("Multiple guests have transfer=" ++ current.ticket ++
        " - database corruption"))

/-- The final glue of `build_full_chain`: append the downstream guests not
already present (membership is Django primary-key equality; rows here are
compared whole). -/
def appendUnique (full : List Guest) : List Guest → List Guest
  | [] => full
  | g :: rest =>
    if g ∈ full then appendUnique full rest
    else appendUnique (full ++ [g]) rest

/-- `TransferChainFixer.build_full_chain`.  The `[]` case of the upstream
result cannot occur (the accumulator starts nonempty and never shrinks);
it is mapped to the out-of-fuel marker. -/
def build_full_chain (db : DB) (fuel : Nat) (ticket_id : String) :
    Except FixError (List Guest × Guest × Guest) :=
  match getGuestByTicket db ticket_id with
  | .error .doesNotExist =>
    .error (.commandError ("No guest found with ticket " ++ ticket_id))
  | .error .multipleObjectsReturned =>
    .error (.commandError ("Multiple guests found with ticket " ++ ticket_id ++
      " - database corruption"))
  | .ok start_guest =>
    match build_upstream db fuel start_guest [start_guest] with
    | .error e => .error e
    | .ok upstream_chain =>
      match upstream_chain with
      | [] => .error .outOfFuel
      | head :: _ =>
        if head.transfer ≠ "" then
          .error (.commandError ("Cannot find head: guest " ++ head.email ++
            " (ticket " ++ head.ticket ++ ") still has transfer=" ++ head.transfer))
        else
          match build_downstream db fuel start_guest [] with
          | .error e => .error e
          | .ok (downstream_chain, tail) =>
            if db.guests.any (fun x => x.transfer == tail.ticket) then
              .error (.commandError ("Cannot find tail: guest " ++ tail.email ++
                " (ticket " ++ tail.ticket ++ ") was transferred to someone else"))
            else
              .ok (appendUnique upstream_chain downstream_chain, head, tail)

/-- C3 amended: the fixer walk does fail loudly on a broken backward link —
when the starting guest's `transfer` names a ticket carried by no guest,
`build_full_chain` raises the distinguishable `CommandError`
"Broken chain: …" (while `TransferChainService.transfer_chain`, per the
counterexample, silently returns the truncated partial chain). -/
theorem build_full_chain_broken_link (db : DB) (fuel : Nat) (ticket : String)
    (start : Guest)
    (hstart : getGuestByTicket db ticket = .ok start)
    (htr : start.transfer ≠ "")
    (hmissing : db.guests.filter (fun x => x.ticket == start.transfer) = [])
    (hfuel : 0 < fuel) :
    build_full_chain db fuel ticket =
      .error (.commandError ("Broken chain: ticket " ++ start.transfer ++
        " not found (referenced by " ++ start.ticket ++ ")")) := by
  obtain ⟨f, rfl⟩ : ∃ f, fuel = f + 1 := ⟨fuel - 1, by omega⟩
  rw [build_full_chain]
  simp only [hstart]
  rw [build_upstream]
  rw [if_pos htr]
  have hget : getGuestByTicket db start.transfer = .error .doesNotExist := by
    rw [getGuestByTicket, objectsGet, hmissing]
  rw [hget]

/-- The repository for the C3 amended witness: `T1` transfers from the
missing ticket `T9`. -/
def dbBroken : DB :=
  { guests := [{ id := 1, name := "A", email := "a@example.com", ticket := "T1",
                 transfer := "T9" }], rooms := [] }

/-- C3 amended witness: the broken-link error at a concrete repository. -/
theorem build_full_chain_broken_link_witness :
    build_full_chain dbBroken 3 "T1" =
      .error (.commandError "Broken chain: ticket T9 not found (referenced by T1)") :=
  build_full_chain_broken_link dbBroken 3 "T1"
    { id := 1, name := "A", email := "a@example.com", ticket := "T1", transfer := "T9" }
    rfl (by decide) (by decide) (by decide)

/-!
## Synthetic transfer chains (C1)

`mkChain tks` builds the guest rows of one well-formed transfer chain whose
ticket codes are `tks` in order: the first guest has an empty `transfer`,
every later guest transfers from its predecessor's ticket, and primary keys
are the positions.  The repository under test is any permutation of these
rows.
-/

/-- The chain rows for tickets `tks`, where the next row transfers from
`prev` and primary keys continue from `i`. -/
def mkChainAux (prev : String) (i : Nat) : List String → List Guest
  | [] => []
  | t :: ts =>
    { id := i + 1, name := t, email := t, ticket := t, transfer := prev } :: mkChainAux t (i + 1) ts

/-- The guest rows of a well-formed transfer chain over tickets `tks`. -/
def mkChain (tks : List String) : List Guest := mkChainAux "" 0 tks

/-- The chain element whose ticket is `t` and whose predecessors carry the
tickets `pre`. -/
def chainElt (pre : List String) (t : String) : Guest :=
  { id := pre.length + 1, name := t, email := t, ticket := t, transfer := pre.getLastD "" }

/-- The head row of the chain (the original purchaser). -/
def chainHead (tks : List String) : Guest := (mkChain tks).headD {}

/-- The tail row of the chain (the current owner). -/
def chainTail (tks : List String) : Guest := (mkChain tks).getLastD {}

theorem mkChainAux_append (xs : List String) :
    ∀ (ys : List String) (prev : String) (i : Nat),
      mkChainAux prev i (xs ++ ys) =
        mkChainAux prev i xs ++ mkChainAux (xs.getLastD prev) (i + xs.length) ys := by
  induction xs with
  | nil => intro ys prev i; simp [mkChainAux]
  | cons x xs ih =>
    intro ys prev i
    simp only [List.cons_append, mkChainAux, ih ys x (i + 1), List.getLastD_cons,
      List.length_cons, List.append_eq]
    rw [show i + (xs.length + 1) = i + 1 + xs.length from by omega]

theorem mkChainAux_map_ticket : ∀ (tks : List String) (prev : String) (i : Nat),
    (mkChainAux prev i tks).map Guest.ticket = tks := by
  intro tks
  induction tks with
  | nil => intro prev i; rfl
  | cons t ts ih => intro prev i; simp [mkChainAux, ih]

theorem mkChainAux_map_transfer : ∀ (tks : List String) (prev : String) (i : Nat),
    (mkChainAux prev i tks).map Guest.transfer = (prev :: tks).dropLast := by
  intro tks
  induction tks with
  | nil => intro prev i; rfl
  | cons t ts ih =>
    intro prev i
    simp only [mkChainAux, List.map_cons, ih t (i + 1)]
    cases ts <;> rfl

theorem mkChain_length (tks : List String) : (mkChain tks).length = tks.length := by
  have := congrArg List.length (mkChainAux_map_ticket tks "" 0)
  simpa using this

theorem mkChain_nodup (tks : List String) (h : tks.Nodup) : (mkChain tks).Nodup :=
  List.Nodup.of_map Guest.ticket (by rw [mkChain, mkChainAux_map_ticket]; exact h)

/-- Decomposing the chain at the element with ticket `t`. -/
theorem mkChain_decompose (pre : List String) (t : String) (suf : List String) :
    mkChain (pre ++ t :: suf) =
      mkChain pre ++ chainElt pre t :: mkChainAux t (pre.length + 1) suf := by
  rw [mkChain, mkChainAux_append pre (t :: suf) "" 0]
  simp [mkChainAux, chainElt, Nat.add_comm, mkChain]

theorem mkChain_mem_decompose_aux :
    ∀ (ts pre : List String) (g : Guest),
      g ∈ mkChainAux (pre.getLastD "") pre.length ts →
      ∃ pre' suf', pre ++ ts = pre' ++ g.ticket :: suf' ∧ g = chainElt pre' g.ticket := by
  intro ts
  induction ts with
  | nil => intro pre g h; simp [mkChainAux] at h
  | cons t ts ih =>
    intro pre g h
    rw [mkChainAux] at h
    rcases List.mem_cons.mp h with hg | hg
    · refine ⟨pre, ts, ?_, ?_⟩
      · rw [hg]
      · rw [hg]; rfl
    · have hlast : t = (pre ++ [t]).getLastD "" := (List.getLastD_concat _ _ _).symm
      have hlen : pre.length + 1 = (pre ++ [t]).length := by simp
      rw [hlast, hlen] at hg
      obtain ⟨pre', suf', hdec, helt⟩ := ih (pre ++ [t]) g hg
      exact ⟨pre', suf', by simpa using hdec, helt⟩

/-- Every member of the chain is a `chainElt` at some decomposition. -/
theorem mkChain_mem_decompose (tks : List String) (g : Guest) (h : g ∈ mkChain tks) :
    ∃ pre suf, tks = pre ++ g.ticket :: suf ∧ g = chainElt pre g.ticket := by
  have := mkChain_mem_decompose_aux tks [] g (by simpa [mkChain] using h)
  simpa using this

/-- A `Nodup` list filters down to the one element satisfying a predicate
no other element satisfies. -/
theorem filter_eq_singleton_of_unique {α : Type} (l : List α) (p : α → Bool) (a : α)
    (hnodup : l.Nodup) (hmem : a ∈ l) (hp : p a = true)
    (huniq : ∀ x ∈ l, p x = true → x = a) : l.filter p = [a] := by
  induction l with
  | nil => simp at hmem
  | cons x xs ih =>
    obtain ⟨hx, hxs⟩ := List.nodup_cons.mp hnodup
    by_cases hxa : x = a
    · subst hxa
      rw [List.filter_cons_of_pos hp]
      have : xs.filter p = [] := by
        refine List.filter_eq_nil_iff.mpr (fun y hy hpy => ?_)
        exact hx ((huniq y (List.mem_cons_of_mem x hy) hpy) ▸ hy)
      rw [this]
    · have hpx : ¬ p x = true := fun hpx =>
        hxa (huniq x (List.mem_cons_self x xs) hpx)
      rw [List.filter_cons_of_neg (by simpa using hpx)]
      have hmem' : a ∈ xs := by
        rcases List.mem_cons.mp hmem with h | h
        · exact absurd h.symm hxa
        · exact h
      exact ih hxs hmem' (fun y hy hpy => huniq y (List.mem_cons_of_mem x hy) hpy)

/-- In a chain repository, looking a chain ticket up by `ticket` yields
exactly its chain element. -/
theorem chain_getByTicket (db : DB) (tks : List String)
    (hperm : db.guests.Perm (mkChain tks)) (hnodup : tks.Nodup)
    (pre : List String) (t : String) (suf : List String)
    (hdec : tks = pre ++ t :: suf) :
    getGuestByTicket db t = .ok (chainElt pre t) := by
  have hmemc : chainElt pre t ∈ mkChain tks := by
    rw [hdec, mkChain_decompose]
    exact List.mem_append_right _ (List.mem_cons_self _ _)
  have hinj : ∀ x ∈ mkChain tks, ∀ y ∈ mkChain tks, x.ticket = y.ticket → x = y :=
    fun x hx y hy hxy =>
      List.inj_on_of_nodup_map (by rw [mkChain, mkChainAux_map_ticket]; exact hnodup) hx hy hxy
  have hmemdb : chainElt pre t ∈ db.guests := hperm.mem_iff.mpr hmemc
  have hnodupdb : db.guests.Nodup := hperm.nodup_iff.mpr (mkChain_nodup tks hnodup)
  have hfilter : db.guests.filter (fun g => g.ticket == t) = [chainElt pre t] := by
    refine filter_eq_singleton_of_unique _ _ _ hnodupdb hmemdb (by simp [chainElt]) ?_
    intro x hx hpx
    have hxt : x.ticket = t := by simpa using hpx
    exact hinj x (hperm.mem_iff.mp hx) (chainElt pre t) hmemc (by simpa [chainElt] using hxt)
  rw [getGuestByTicket, objectsGet, hfilter]

/-- The transfer values of a chain are pairwise distinct. -/
theorem chain_transfer_inj (tks : List String) (hnodup : tks.Nodup)
    (hne : ∀ t ∈ tks, t ≠ "") :
    ∀ x ∈ mkChain tks, ∀ y ∈ mkChain tks, x.transfer = y.transfer → x = y := by
  have hmap : (mkChain tks).map Guest.transfer = ("" :: tks).dropLast := by
    rw [mkChain, mkChainAux_map_transfer]
  have hnd : (("" :: tks).dropLast).Nodup := by
    have : ("" :: tks).Nodup := by
      rw [List.nodup_cons]
      exact ⟨fun h => hne "" h rfl, hnodup⟩
    exact this.sublist (List.dropLast_sublist _)
  exact fun x hx y hy hxy =>
    List.inj_on_of_nodup_map (hmap ▸ hnd) hx hy hxy

/-- Looking up `transfer = t` when `t` has a successor in the chain yields
exactly the successor's element. -/
theorem chain_getByTransfer_succ (db : DB) (tks : List String)
    (hperm : db.guests.Perm (mkChain tks)) (hnodup : tks.Nodup)
    (hne : ∀ t ∈ tks, t ≠ "")
    (pre : List String) (t s : String) (suf : List String)
    (hdec : tks = pre ++ t :: s :: suf) :
    getGuestByTransfer db t = .ok (chainElt (pre ++ [t]) s) := by
  have hdec' : tks = (pre ++ [t]) ++ s :: suf := by simpa using hdec
  have hmemc : chainElt (pre ++ [t]) s ∈ mkChain tks := by
    rw [hdec', mkChain_decompose]
    exact List.mem_append_right _ (List.mem_cons_self _ _)
  have htr : (chainElt (pre ++ [t]) s).transfer = t := by
    simp [chainElt, List.getLastD_concat]
  have hmemdb : chainElt (pre ++ [t]) s ∈ db.guests := hperm.mem_iff.mpr hmemc
  have hnodupdb : db.guests.Nodup := hperm.nodup_iff.mpr (mkChain_nodup tks hnodup)
  have hfilter : db.guests.filter (fun g => g.transfer == t) = [chainElt (pre ++ [t]) s] := by
    refine filter_eq_singleton_of_unique _ _ _ hnodupdb hmemdb (by simp [htr]) ?_
    intro x hx hpx
    have hxt : x.transfer = t := by simpa using hpx
    exact chain_transfer_inj tks hnodup hne x (hperm.mem_iff.mp hx) _ hmemc
      (by rw [hxt, htr])
  rw [getGuestByTransfer, objectsGet, hfilter]

/-- No chain element transfers from the last ticket. -/
theorem chain_getByTransfer_last (db : DB) (tks : List String)
    (hperm : db.guests.Perm (mkChain tks)) (hnodup : tks.Nodup)
    (hne : ∀ t ∈ tks, t ≠ "")
    (pre : List String) (t : String) (hdec : tks = pre ++ [t]) :
    db.guests.filter (fun g => g.transfer == t) = [] := by
  refine List.filter_eq_nil_iff.mpr (fun x hx hpx => ?_)
  have hxt : x.transfer = t := by simpa using hpx
  have hxc : x ∈ mkChain tks := hperm.mem_iff.mp hx
  have hxtr : x.transfer ∈ ("" :: tks).dropLast := by
    have : x.transfer ∈ (mkChain tks).map Guest.transfer := List.mem_map_of_mem _ hxc
    rwa [mkChain, mkChainAux_map_transfer] at this
  rw [hdec] at hxtr
  have h2 : ("" :: (pre ++ [t])).dropLast = "" :: pre := by
    rw [← List.cons_append, List.dropLast_concat]
  rw [h2] at hxtr
  have : x.transfer ∈ "" :: pre := hxtr
  rcases List.mem_cons.mp this with h | h
  · exact hne t (by rw [hdec]; exact List.mem_append_right _ (List.mem_cons_self _ _))
      (by rw [← hxt, h])
  · have htmem : t ∉ pre := by
      have := hnodup
      rw [hdec] at this
      have := List.nodup_middle.mp (by simpa using this)
      exact fun hc => (List.nodup_cons.mp this).1 (by simpa using hc)
    exact htmem (hxt ▸ h)

/-- The backward walk from any chain element collects exactly the chain
prefix before it. -/
theorem chain_upstream (db : DB) (tks : List String)
    (hperm : db.guests.Perm (mkChain tks)) (hnodup : tks.Nodup)
    (hne : ∀ t ∈ tks, t ≠ "") :
    ∀ (pre : List String) (t : String) (suf : List String) (acc : List Guest) (fuel : Nat),
      tks = pre ++ t :: suf → pre.length < fuel →
      build_upstream db fuel (chainElt pre t) acc = .ok (mkChain pre ++ acc) := by
  intro pre
  induction pre using List.reverseRecOn with
  | nil =>
    intro t suf acc fuel hdec hfuel
    obtain ⟨f, rfl⟩ : ∃ f, fuel = f + 1 := ⟨fuel - 1, by omega⟩
    rw [build_upstream]
    simp [chainElt, mkChain, mkChainAux]
  | append_singleton pre' p ih =>
    intro t suf acc fuel hdec hfuel
    obtain ⟨f, rfl⟩ : ∃ f, fuel = f + 1 := ⟨fuel - 1, by omega⟩
    have htr : (chainElt (pre' ++ [p]) t).transfer = p := by
      simp [chainElt, List.getLastD_concat]
    have hpmem : p ∈ tks := by
      rw [hdec]
      exact List.mem_append_left _ (List.mem_append_right _ (List.mem_cons_self _ _))
    have hpne : p ≠ "" := hne p hpmem
    have hdec' : tks = pre' ++ p :: (t :: suf) := by simpa using hdec
    have hget : getGuestByTicket db p = .ok (chainElt pre' p) :=
      chain_getByTicket db tks hperm hnodup pre' p (t :: suf) hdec'
    rw [build_upstream, htr]
    rw [if_pos hpne]
    simp only [hget]
    rw [ih p (t :: suf) (chainElt pre' p :: acc) f hdec' (by simp at hfuel; omega)]
    rw [show mkChain (pre' ++ [p]) = mkChain pre' ++ [chainElt pre' p] from by
      simpa [mkChainAux] using mkChain_decompose pre' p []]
    simp

/-- The forward walk from any chain element collects exactly the chain
suffix from it on and ends at the chain tail. -/
theorem chain_downstream (db : DB) (tks : List String)
    (hperm : db.guests.Perm (mkChain tks)) (hnodup : tks.Nodup)
    (hne : ∀ t ∈ tks, t ≠ "") :
    ∀ (suf pre : List String) (t : String) (acc : List Guest) (fuel : Nat),
      tks = pre ++ t :: suf → suf.length < fuel →
      build_downstream db fuel (chainElt pre t) acc =
        .ok (acc ++ mkChainAux (pre.getLastD "") pre.length (t :: suf), chainTail tks) := by
  intro suf
  induction suf with
  | nil =>
    intro pre t acc fuel hdec hfuel
    obtain ⟨f, rfl⟩ : ∃ f, fuel = f + 1 := ⟨fuel - 1, by omega⟩
    have hfilter : db.guests.filter (fun g => g.transfer == t) = [] :=
      chain_getByTransfer_last db tks hperm hnodup hne pre t hdec
    have hget : getGuestByTransfer db (chainElt pre t).ticket = .error .doesNotExist := by
      rw [show (chainElt pre t).ticket = t from rfl, getGuestByTransfer, objectsGet, hfilter]
    rw [build_downstream]
    simp only [hget]
    have htail : chainTail tks = chainElt pre t := by
      rw [hdec, chainTail]
      rw [show mkChain (pre ++ [t]) = mkChain pre ++ [chainElt pre t] from by
        simpa [mkChainAux] using mkChain_decompose pre t []]
      simp [List.getLastD_concat]
    rw [htail]
    rfl
  | cons s suf' ih =>
    intro pre t acc fuel hdec hfuel
    obtain ⟨f, rfl⟩ : ∃ f, fuel = f + 1 := ⟨fuel - 1, by omega⟩
    have hget : getGuestByTransfer db (chainElt pre t).ticket =
        .ok (chainElt (pre ++ [t]) s) := by
      rw [show (chainElt pre t).ticket = t from rfl]
      exact chain_getByTransfer_succ db tks hperm hnodup hne pre t s suf' hdec
    rw [build_downstream]
    simp only [hget]
    have hdec' : tks = (pre ++ [t]) ++ s :: suf' := by simpa using hdec
    rw [ih (pre ++ [t]) s (acc ++ [chainElt pre t]) f hdec' (by simp at hfuel ⊢; omega)]
    simp only [List.getLastD_concat, List.length_append, List.length_singleton]
    rw [show mkChainAux (pre.getLastD "") pre.length (t :: s :: suf') =
      chainElt pre t :: mkChainAux t (pre.length + 1) (s :: suf') from rfl]
    simp

/-- Gluing: appending only the unseen part of a list whose concatenation
is duplicate-free. -/
theorem appendUnique_of_nodup : ∀ (ys full : List Guest), (full ++ ys).Nodup →
    appendUnique full ys = full ++ ys := by
  intro ys
  induction ys with
  | nil => intro full _; simp [appendUnique]
  | cons y ys ih =>
    intro full hnd
    have hmid := List.nodup_middle.mp hnd
    obtain ⟨hy, _⟩ := List.nodup_cons.mp hmid
    have hynotin : y ∉ full := fun hc => hy (List.mem_append_left _ hc)
    rw [appendUnique, if_neg hynotin]
    rw [ih (full ++ [y]) (by simpa using hnd)]
    simp

/-- The head row of the full chain equals the head row of any of its
nonempty prefixes. -/
theorem chainHead_decompose (pre : List String) (t : String) (suf : List String) :
    (mkChain (pre ++ [t])).headD {} = chainHead (pre ++ t :: suf) := by
  cases pre <;> rfl

/-- C1: on a repository holding (any permutation of) a well-formed
transfer chain with distinct nonempty tickets, `build_full_chain` invoked
with the ticket of any chain member returns the same full chain (in
head-to-tail order), the same head and the same tail — none of which
depend on the starting member — and that chain has one row per ticket with
no duplicates. -/
theorem build_full_chain_any_member (tks : List String) (db : DB) (g : Guest)
    (fuel : Nat)
    (hperm : db.guests.Perm (mkChain tks))
    (hnodup : tks.Nodup)
    (hne : ∀ t ∈ tks, t ≠ "")
    (hmem : g ∈ mkChain tks)
    (hfuel : tks.length ≤ fuel) :
    build_full_chain db fuel g.ticket = .ok (mkChain tks, chainHead tks, chainTail tks)
    ∧ (mkChain tks).length = tks.length
    ∧ (mkChain tks).Nodup := by
  refine ⟨?_, mkChain_length tks, mkChain_nodup tks hnodup⟩
  obtain ⟨pre, suf, hdec, hgelt⟩ := mkChain_mem_decompose tks g hmem
  have hlen : tks.length = pre.length + suf.length + 1 := by
    rw [hdec]; simp [Nat.add_comm, Nat.add_assoc, Nat.add_left_comm]
  have hstart : getGuestByTicket db g.ticket = .ok g := by
    rw [hgelt] at hdec ⊢
    exact chain_getByTicket db tks hperm hnodup pre _ suf hdec
  have hup : build_upstream db fuel g [g] = .ok (mkChain pre ++ [g]) := by
    conv_lhs => rw [hgelt]
    rw [chain_upstream db tks hperm hnodup hne pre g.ticket suf
      [chainElt pre g.ticket] fuel hdec (by omega)]
    rw [← hgelt]
  have hupfull : mkChain pre ++ [g] = mkChain (pre ++ [g.ticket]) := by
    rw [show mkChain (pre ++ [g.ticket]) = mkChain pre ++ [chainElt pre g.ticket] from by
      simpa [mkChainAux] using mkChain_decompose pre g.ticket []]
    rw [← hgelt]
  have hdown : build_downstream db fuel g [] =
      .ok (mkChainAux (pre.getLastD "") pre.length (g.ticket :: suf), chainTail tks) := by
    conv_lhs => rw [hgelt]
    rw [chain_downstream db tks hperm hnodup hne suf pre g.ticket [] fuel hdec (by omega)]
    rfl
  -- the tail carries the last ticket, which no row transfers from
  have htailticket : ∃ pre2, tks = pre2 ++ [(chainTail tks).ticket] := by
    obtain ⟨pre2, t2, hdec2⟩ : ∃ pre2 t2, tks = pre2 ++ [t2] := by
      cases hsuf : suf.reverse with
      | nil =>
        refine ⟨pre, g.ticket, ?_⟩
        have : suf = [] := by simpa using congrArg List.reverse hsuf
        rw [hdec, this]
      | cons s2 rest =>
        refine ⟨pre ++ g.ticket :: rest.reverse, s2, ?_⟩
        have : suf = rest.reverse ++ [s2] := by
          have := congrArg List.reverse hsuf
          simpa using this
        rw [hdec, this]
        simp
    have : chainTail tks = chainElt pre2 t2 := by
      rw [hdec2, chainTail]
      rw [show mkChain (pre2 ++ [t2]) = mkChain pre2 ++ [chainElt pre2 t2] from by
        simpa [mkChainAux] using mkChain_decompose pre2 t2 []]
      simp [List.getLastD_concat]
    exact ⟨pre2, by rw [this]; exact hdec2⟩
  obtain ⟨pre2, hdec2⟩ := htailticket
  have hnotail : db.guests.any (fun x => x.transfer == (chainTail tks).ticket) = false := by
    rw [List.any_eq_false]
    intro x hx
    have := chain_getByTransfer_last db tks hperm hnodup hne pre2 _ hdec2
    have hnone := List.filter_eq_nil_iff.mp this x hx
    simpa using hnone
  -- the upstream result is nonempty and starts with the chain head
  cases hL : mkChain (pre ++ [g.ticket]) with
  | nil =>
    have := congrArg List.length hL
    rw [mkChain_length] at this
    simp at this
  | cons h0 rest =>
    have hform : mkChain pre ++ [g] = h0 :: rest := hupfull.trans hL
    have hhd : h0 = chainHead tks := by
      have hcd := chainHead_decompose pre g.ticket suf
      rw [hL] at hcd
      rw [← hdec] at hcd
      simpa using hcd
    have hhdtr : h0.transfer = "" := by
      rw [hhd]
      cases tks with
      | nil => rfl
      | cons t0 ts => rfl
    -- assemble
    rw [build_full_chain]
    simp only [hstart, hup, hform]
    rw [if_neg (by rw [hhdtr]; simp)]
    simp only [hdown]
    rw [if_neg (by rw [hnotail]; simp)]
    -- the glue produces the whole chain
    have hdownlist : mkChainAux (pre.getLastD "") pre.length (g.ticket :: suf) =
        g :: mkChainAux g.ticket (pre.length + 1) suf := by
      rw [show mkChainAux (pre.getLastD "") pre.length (g.ticket :: suf) =
        chainElt pre g.ticket :: mkChainAux g.ticket (pre.length + 1) suf from rfl]
      rw [← hgelt]
    have hgmem : g ∈ mkChain pre ++ [g] :=
      List.mem_append_right _ (List.mem_singleton.mpr rfl)
    have hfull : (mkChain pre ++ [g]) ++ mkChainAux g.ticket (pre.length + 1) suf =
        mkChain tks := by
      rw [hdec, mkChain_decompose pre g.ticket suf, ← hgelt]
      simp
    have hglue : appendUnique (mkChain pre ++ [g])
        (mkChainAux (pre.getLastD "") pre.length (g.ticket :: suf)) = mkChain tks := by
      rw [hdownlist, appendUnique, if_pos hgmem]
      rw [appendUnique_of_nodup _ _ (by rw [hfull]; exact mkChain_nodup tks hnodup)]
      exact hfull
    rw [← hform, hglue, hhd]

/-- A three-link chain stored in (a permutation of) insertion order. -/
def dbChainW : DB :=
  { guests := [{ id := 2, name := "T2", email := "T2", ticket := "T2", transfer := "T1" },
               { id := 3, name := "T3", email := "T3", ticket := "T3", transfer := "T2" },
               { id := 1, name := "T1", email := "T1", ticket := "T1", transfer := "" }],
    rooms := [] }

/-- C1 witness: the chain theorem applied to a concrete permuted 3-chain,
started from its middle member. -/
theorem build_full_chain_any_member_witness :
    build_full_chain dbChainW 3 "T2" =
        .ok (mkChain ["T1", "T2", "T3"], chainHead ["T1", "T2", "T3"],
          chainTail ["T1", "T2", "T3"])
      ∧ (mkChain ["T1", "T2", "T3"]).length = ["T1", "T2", "T3"].length
      ∧ (mkChain ["T1", "T2", "T3"]).Nodup :=
  build_full_chain_any_member ["T1", "T2", "T3"] dbChainW
    { id := 2, name := "T2", email := "T2", ticket := "T2", transfer := "T1" } 3
    (by decide) (by decide) (by decide) (by decide) (by decide)

end RoomBot
